import Mathlib

/-!
# SPEEDRAYS: the simulation core of `script.js`

A shallow embedding of the game state and of the per-frame `loop` function of
`src/script.js`, followed by theorems about it.

Modelling conventions.

* JavaScript numbers are modelled as exact rationals (`ℚ`); `Math.floor` is `Int.floor`,
  `Math.min` / `Math.max` are `min` / `max`.  Quantities that the program only ever
  assigns integral values (score, counters, level) are integers or naturals.
* Where the rounding of binary64 arithmetic decides a property (the spawn intervals),
  the expression is modelled a second time with every operation rounded to the nearest
  binary64 number, ties to even (`roundDouble`, `enemyIntervalDouble`, `coinIntervalDouble`).
* `Math.random()` is an explicit argument: every tick receives the draws it may consume
  (`Draws`), in the order in which the source calls `Math.random()`.
* The mutable globals `game`, `avoidedCount`, `collectedCount`, `viewW`, `viewH` are the
  fields of one record `Game`, passed explicitly.  `inputState` is the argument `InputState`.
* DOM, canvas, audio and storage calls have no effect on this state and are left out.
-/

namespace SpeedRays

/-! ## Constants (script.js lines 5-16) -/

def CANVAS_BASE_WIDTH : ℚ := 420
def CANVAS_BASE_HEIGHT : ℚ := 860
def LANE_COUNT : ℚ := 3
def ROAD_PADDING : ℚ := 28
def OBSTACLE_SPAWN_INTERVAL_BASE_MS : ℚ := 720
def COIN_SPAWN_INTERVAL_BASE_MS : ℚ := 1100
def MAX_SPEED : ℚ := 15
def MIN_SPEED : ℚ := 4
/-- The literal `0.55`. -/
def ACCELERATION : ℚ := 55 / 100
/-- The literal `0.7`. -/
def DECELERATION : ℚ := 7 / 10
def HZ : ℚ := 60
def DT : ℚ := 1 / HZ

/-- The badge pushed on a successful parking. -/
def PARKED : String := "🅿️ Parked!"

/-! ## Data model (script.js lines 112, 151-172, 254-255) -/

inductive EntityType where
  | player | enemy | coin | wall | spot
  deriving DecidableEq, Repr

/-- The `Entity` typedef.  Optional fields are `Option`s. -/
structure Entity where
  x : ℚ
  y : ℚ
  w : ℚ
  h : ℚ
  type : EntityType
  lane : Option ℤ := none
  color : Option String := none
  car : Option String := none
  vy : Option ℚ := none
  deriving DecidableEq, Repr

structure PlayerMeta where
  name : String
  age : ℤ
  avatar : String
  color : String
  car : String
  deriving DecidableEq, Repr

structure SpawnTimers where
  enemy : ℚ
  coin : ℚ
  deriving DecidableEq, Repr

/-- The string tag `game.mode`; the form handler only ever stores one of these two values. -/
inductive Mode where
  | race | parking
  deriving DecidableEq, Repr

/-- The sampled `inputState`. -/
structure InputState where
  left : Bool
  right : Bool
  up : Bool
  down : Bool
  pause : Bool
  deriving DecidableEq, Repr

/-- The global `game` object together with the module-level variables the loop reads or
writes.  `player` is the object built by `resetGame` (it is `null` only before the first
run, when `running` is false and `loop` returns at once).  `level = 0` stands for a falsy
`game.level` (the property is undefined until the form handler sets it). -/
structure Game where
  running : Bool
  over : Bool
  t : ℚ
  elapsed : ℚ
  speed : ℚ
  distance : ℚ
  score : ℤ
  player : Entity
  enemies : List Entity
  coins : List Entity
  walls : List Entity
  spots : List Entity
  spawnTimers : SpawnTimers
  playerMeta : Option PlayerMeta
  badges : List String
  mode : Mode
  level : ℕ
  avoidedCount : ℤ
  collectedCount : ℤ
  viewW : ℚ
  viewH : ℚ
  deriving DecidableEq, Repr

/-- The draws of `Math.random()` one tick may consume, in call order: `spawnEnemy` draws
the lane, the height jitter and the velocity jitter; `spawnCoin` draws the lane. -/
structure Draws where
  enemyLane : ℚ
  enemyH : ℚ
  enemyVy : ℚ
  coinLane : ℚ
  deriving DecidableEq, Repr

/-! ## Helpers of the run state (script.js lines 174-229, 285-302) -/

/-- `laneX(laneIndex)` with the current `viewW`. -/
def laneX (viewW : ℚ) (laneIndex : ℤ) : ℚ :=
  let roadWidth := viewW - ROAD_PADDING * 2
  let laneWidth := roadWidth / LANE_COUNT
  ROAD_PADDING + laneWidth * laneIndex + laneWidth / 2

/-- `setupParkingLevel()`: four outer walls, one target spot, player start position. -/
def setupParkingLevel (g : Game) : Game :=
  let margin : ℚ := 24
  let lotW := g.viewW - margin * 2
  let lotH := g.viewH - 200
  let walls := g.walls ++
    [ { type := .wall, x := margin, y := margin + 60, w := lotW, h := 12 },
      { type := .wall, x := margin, y := margin + 60 + lotH - 12, w := lotW, h := 12 },
      { type := .wall, x := margin, y := margin + 60, w := 12, h := lotH },
      { type := .wall, x := margin + lotW - 12, y := margin + 60, w := 12, h := lotH } ]
  let spotW : ℚ := 80
  let spotH : ℚ := 120
  let spotX := margin + lotW - spotW - 24
  let spotY := margin + 60 + 24
  let spots := g.spots ++ [ { type := .spot, x := spotX, y := spotY, w := spotW, h := spotH } ]
  { g with
    walls := walls
    spots := spots
    player := { g.player with x := margin + 36, y := margin + 60 + lotH - g.player.h - 24 } }

/-- `shrinkSpot(scale)`. -/
def shrinkSpot (scale : ℚ) (g : Game) : Game :=
  match g.spots with
  | [] => g
  | s :: rest =>
    let cx := s.x + s.w / 2
    let cy := s.y + s.h / 2
    let w : ℚ := max 50 (⌊s.w * scale⌋ : ℤ)
    let h : ℚ := max 80 (⌊s.h * scale⌋ : ℤ)
    let x : ℚ := (⌊cx - w / 2⌋ : ℤ)
    let y : ℚ := (⌊cy - h / 2⌋ : ℤ)
    { g with spots := { s with w := w, h := h, x := x, y := y } :: rest }

/-- One entry of `raceLevels` / `parkingLevels`. -/
structure LevelDef where
  id : ℕ
  desc : String
  check : Game → Bool
  setup : Option (Game → Game) := none

def raceLevels : List LevelDef :=
  [ { id := 1, desc := "Survive 20s", check := fun g => decide (g.elapsed ≥ 20) },
    { id := 2, desc := "Reach score 400", check := fun g => decide (g.score ≥ 400) },
    { id := 3, desc := "Collect 8 coins", check := fun g => decide (g.collectedCount ≥ 8) },
    { id := 4, desc := "Survive 40s", check := fun g => decide (g.elapsed ≥ 40) },
    { id := 5, desc := "Reach score 900", check := fun g => decide (g.score ≥ 900) } ]

def parkingLevels : List LevelDef :=
  [ { id := 1, desc := "Park in the highlighted spot",
      check := fun g => g.over && g.badges.contains PARKED },
    { id := 2, desc := "Park again (smaller spot)",
      setup := some (shrinkSpot (8 / 10)),
      check := fun g => g.over && g.badges.contains PARKED },
    { id := 3, desc := "Park again (tiny spot)",
      setup := some (shrinkSpot (65 / 100)),
      check := fun g => g.over && g.badges.contains PARKED } ]

/-- The expression `game.level||1`. -/
def levelOr1 (g : Game) : ℕ := if g.level = 0 then 1 else g.level

/-- `ensureLevelSetup()`. -/
def ensureLevelSetup (g : Game) : Game :=
  let g := if g.level = 0 then { g with level := 1 } else g
  match g.mode with
  | .parking =>
    match parkingLevels.find? (fun l => l.id == g.level) with
    | some ld =>
      match ld.setup with
      | some f => f g
      | none => g
    | none => g
  | .race => g

/-- `resetGame(playerMeta)`. -/
def resetGame (playerMeta : PlayerMeta) (g : Game) : Game :=
  let g := { g with
    running := true
    over := false
    t := 0
    elapsed := 0
    speed := MIN_SPEED + 1 / 2
    distance := 0
    score := 0
    enemies := []
    coins := []
    walls := []
    spots := []
    spawnTimers := { enemy := 0, coin := 0 }
    badges := []
    playerMeta := some playerMeta
    player :=
      { type := .player, x := laneX g.viewW 1, y := g.viewH - 120, w := 54, h := 96,
        color := some playerMeta.color, car := some playerMeta.car } }
  let g := if g.mode = .parking then setupParkingLevel g else g
  ensureLevelSetup g

/-! ## Spawning and geometry (script.js lines 305-319) -/

/-- `spawnEnemy()`; `r1 r2 r3` are its three `Math.random()` draws in call order. -/
def spawnEnemy (r1 r2 r3 : ℚ) (g : Game) : Game :=
  let lane : ℤ := ⌊r1 * LANE_COUNT⌋
  let x := laneX g.viewW lane
  let h := 68 + r2 * 22
  let w : ℚ := 46
  { g with enemies := g.enemies ++
      [ { type := .enemy, x := x - w / 2, y := -h, w := w, h := h, lane := some lane,
          vy := some (g.speed + 12 / 10 + r3 * (22 / 10)) } ] }

/-- `spawnCoin()`; `r` is its `Math.random()` draw. -/
def spawnCoin (r : ℚ) (g : Game) : Game :=
  let lane : ℤ := ⌊r * LANE_COUNT⌋
  let x := laneX g.viewW lane
  { g with coins := g.coins ++
      [ { type := .coin, x := x - 12, y := -18, w := 24, h := 24, lane := some lane,
          vy := some (g.speed + 14 / 10) } ] }

/-- `aabb(a,b)`. -/
def aabb (a b : Entity) : Bool :=
  decide (a.x < b.x + b.w) && decide (a.x + a.w > b.x) &&
    decide (a.y < b.y + b.h) && decide (a.y + a.h > b.y)

/-! ## The simulation loop (script.js lines 430-562)

`loop` is split into its consecutive phases; each phase is the block of statements of
the source named in its comment, in source order. -/

/-- `endGame()`: the two flag writes; the rest of the function is DOM and storage output. -/
def endGame (g : Game) : Game :=
  { g with running := false, over := true }

/-- Lines 436-437: `game.t += DT; game.elapsed += DT`. -/
def advanceTime (g : Game) : Game :=
  { g with t := g.t + DT, elapsed := g.elapsed + DT }

/-- Lines 440-441: the speed update from the `up` and `down` flags. -/
def updateSpeed (inp : InputState) (g : Game) : Game :=
  let g := if inp.up then { g with speed := min MAX_SPEED (g.speed + ACCELERATION * DT * HZ) } else g
  if inp.down then { g with speed := max MIN_SPEED (g.speed - DECELERATION * DT * HZ) } else g

/-- Line 447: `moveX`. -/
def moveX (inp : InputState) : ℤ :=
  (if inp.left then -1 else 0) + (if inp.right then 1 else 0)

/-- Line 448: `moveY`. -/
def moveY (inp : InputState) : ℤ :=
  (if inp.up then -1 else 0) + (if inp.down then 1 else 0)

/-- Lines 449-456: player movement (race: lateral, clamped to the road; parking: free). -/
def movePlayer (inp : InputState) (g : Game) : Game :=
  match g.mode with
  | .race =>
    let x := g.player.x + moveX inp * (78 / 10)
    let x := max (ROAD_PADDING + 6) (min (g.viewW - ROAD_PADDING - g.player.w - 6) x)
    { g with player := { g.player with x := x } }
  | .parking =>
    { g with player := { g.player with
        x := g.player.x + moveX inp * (52 / 10)
        y := g.player.y + moveY inp * (52 / 10) } }

/-- Line 462: `enemyInterval` as a function of the current speed. -/
def enemyInterval (speed : ℚ) : ℚ :=
  max 360 (OBSTACLE_SPAWN_INTERVAL_BASE_MS - speed * 40)

/-- Line 463: `coinInterval` as a function of the current speed. -/
def coinInterval (speed : ℚ) : ℚ :=
  max 420 (COIN_SPAWN_INTERVAL_BASE_MS - speed * 30)

/-- Lines 458-466: spawn timers and spawning (race only). -/
def spawnStep (d : Draws) (g : Game) : Game :=
  match g.mode with
  | .race =>
    let g := { g with spawnTimers :=
      { enemy := g.spawnTimers.enemy - DT * 1000, coin := g.spawnTimers.coin - DT * 1000 } }
    let eI := enemyInterval g.speed
    let cI := coinInterval g.speed
    let g :=
      if g.spawnTimers.enemy ≤ 0 then
        let g := spawnEnemy d.enemyLane d.enemyH d.enemyVy g
        { g with spawnTimers := { g.spawnTimers with enemy := eI } }
      else g
    if g.spawnTimers.coin ≤ 0 then
      let g := spawnCoin d.coinLane g
      { g with spawnTimers := { g.spawnTimers with coin := cI } }
    else g
  | .parking => g

/-- Lines 471-472: `e.y += (e.vy ?? vy)`. -/
def scroll (vy : ℚ) (e : Entity) : Entity :=
  { e with y := e.y + e.vy.getD vy }

/-- Lines 469-472: all obstacles and pickups move down (race only). -/
def moveEntities (g : Game) : Game :=
  let vy := g.speed * (39 / 10)
  match g.mode with
  | .race => { g with enemies := g.enemies.map (scroll vy), coins := g.coins.map (scroll vy) }
  | .parking => g

/-- Lines 474-477: the cull (race only). -/
def cull (g : Game) : Game :=
  match g.mode with
  | .race =>
    let beforeEnemies : ℤ := g.enemies.length
    let enemies := g.enemies.filter (fun e => decide (e.y < g.viewH + 60))
    { g with
      enemies := enemies
      avoidedCount := g.avoidedCount + max 0 (beforeEnemies - enemies.length)
      coins := g.coins.filter (fun c => decide (c.y < g.viewH + 40)) }
  | .parking => g

/-- Lines 489-498: the pickup loop `for (let i = coins.length-1; i >= 0; i--)`.  The first
argument is `i + 1`; `splice(i,1)` is `eraseIdx i`. -/
def coinLoop : ℕ → Game → Game
  | 0, g => g
  | i + 1, g =>
    match g.coins[i]? with
    | none => coinLoop i g
    | some c =>
      if aabb g.player c then
        coinLoop i { g with
          coins := g.coins.eraseIdx i
          collectedCount := g.collectedCount + 1
          score := g.score + 15 }
      else coinLoop i g

/-- Lines 502-508: the push-back of the player `p` against one wall `w`. -/
def pushBack (mx my : ℤ) (p w : Entity) : Entity :=
  if aabb p w then
    let p := if mx > 0 then { p with x := w.x - p.w } else p
    let p := if mx < 0 then { p with x := w.x + w.w } else p
    let p := if my > 0 then { p with y := w.y - p.h } else p
    if my < 0 then { p with y := w.y + w.h } else p
  else p

/-- Lines 501-509: `for (const w of game.walls)` applies the push-back wall after wall. -/
def wallStep (inp : InputState) (g : Game) : Game :=
  { g with player := g.walls.foldl (pushBack (moveX inp) (moveY inp)) g.player }

/-- Lines 481-519: collisions.  The second component tells whether the branch executed
`return endGame()`. -/
def collisions (inp : InputState) (g : Game) : Game × Bool :=
  match g.mode with
  | .race =>
    if g.enemies.any (fun e => aabb g.player e) then (endGame g, true)
    else (coinLoop g.coins.length g, false)
  | .parking =>
    let g := wallStep inp g
    match g.spots.head? with
    | some s =>
      if aabb g.player s then (endGame { g with badges := g.badges ++ [PARKED] }, true)
      else (g, false)
    | none => (g, false)

/-- Lines 522-523: distance and score accrual. -/
def accrue (g : Game) : Game :=
  { g with distance := g.distance + g.speed * DT, score := g.score + ⌊g.speed * (7 / 10)⌋ }

/-- Lines 528-542: level progression. -/
def progression (g : Game) : Game :=
  let currentLevels := match g.mode with
    | .race => raceLevels
    | .parking => parkingLevels
  match currentLevels.find? (fun l => l.id == levelOr1 g) with
  | some ld =>
    if ld.check g then
      let g := { g with level := levelOr1 g + 1 }
      match g.mode with
      | .race => { g with speed := min MAX_SPEED (g.speed + 1) }
      | .parking => g
    else g
  | none => g

/-- The state after lines 436-478 of a tick that runs: time, speed, movement, spawning,
scrolling and culling. -/
def simulate (inp : InputState) (d : Draws) (g : Game) : Game :=
  cull (moveEntities (spawnStep d (movePlayer inp (updateSpeed inp (advanceTime g)))))

/-- `loop(ts)`: one invocation of the frame callback. -/
def loop (inp : InputState) (d : Draws) (g : Game) : Game :=
  if !g.running then g
  else if inp.pause then g
  else
    match collisions inp (simulate inp d g) with
    | (g1, true) => g1
    | (g1, false) => progression (accrue g1)

/-- Successive invocations of `loop`, one per element of the list of samples. -/
def run (ticks : List (InputState × Draws)) (g : Game) : Game :=
  ticks.foldl (fun s td => loop td.1 td.2 s) g

/-! ## Frame predicates and sample states used by the theorems -/

/-- The fields that lines 436-478 of `loop` never write, compared between two states. -/
def Kept (a b : Game) : Prop :=
  b.running = a.running ∧ b.over = a.over ∧ b.distance = a.distance ∧ b.score = a.score ∧
  b.walls = a.walls ∧ b.spots = a.spots ∧ b.badges = a.badges ∧ b.mode = a.mode ∧
  b.level = a.level ∧ b.collectedCount = a.collectedCount ∧ b.viewW = a.viewW ∧
  b.viewH = a.viewH

/-- A state as the page holds it before the first run (base canvas size, level 1). -/
def blankGame : Game :=
  { running := false, over := false, t := 0, elapsed := 0, speed := MIN_SPEED, distance := 0,
    score := 0, player := { type := .player, x := 0, y := 0, w := 54, h := 96 },
    enemies := [], coins := [], walls := [], spots := [],
    spawnTimers := { enemy := 0, coin := 0 }, playerMeta := none, badges := [],
    mode := .race, level := 1, avoidedCount := 0, collectedCount := 0,
    viewW := CANVAS_BASE_WIDTH, viewH := CANVAS_BASE_HEIGHT }

def demoMeta : PlayerMeta :=
  { name := "Player", age := 18, avatar := "😎", color := "#ff0000", car := "sport" }

def noInput : InputState :=
  { left := false, right := false, up := false, down := false, pause := false }

def zeroDraws : Draws := { enemyLane := 0, enemyH := 0, enemyVy := 0, coinLane := 0 }

/-- A race state with one obstacle right above the player. -/
def crashState : Game :=
  { resetGame demoMeta blankGame with
    enemies := [ { type := .enemy, x := 200, y := 700, w := 46, h := 80, vy := some 5 } ]
    spawnTimers := { enemy := 500, coin := 500 } }

/-- The spec's "fully inside": the box of `p` is contained in the box of `s`. -/
def fullyInside (p s : Entity) : Prop :=
  s.x ≤ p.x ∧ p.x + p.w ≤ s.x + s.w ∧ s.y ≤ p.y ∧ p.y + p.h ≤ s.y + s.h

instance fullyInside.decidable (p s : Entity) : Decidable (fullyInside p s) := by
  unfold fullyInside; infer_instance

/-- The Park example of the spec: zone (300,100,80,120), player box (310,110,54,96). -/
def exampleParkState : Game :=
  { resetGame demoMeta { blankGame with mode := .parking } with
    spots := [ { type := .spot, x := 300, y := 100, w := 80, h := 120 } ]
    player := { type := .player, x := 310, y := 110, w := 54, h := 96 } }

/-- The fields that the collision and accrual steps (lines 481-524) never write. -/
def KeptLate (a b : Game) : Prop :=
  b.speed = a.speed ∧ b.enemies = a.enemies ∧ b.avoidedCount = a.avoidedCount ∧
  b.spawnTimers = a.spawnTimers ∧ b.mode = a.mode ∧ b.level = a.level

/-- The speed bound of the spec. -/
def speedOk (g : Game) : Prop := MIN_SPEED ≤ g.speed ∧ g.speed ≤ MAX_SPEED

/-- The state on which the progression step of a tick runs: after collisions and accrual. -/
def beforeProgression (inp : InputState) (d : Draws) (g : Game) : Game :=
  accrue (collisions inp (simulate inp d g)).1

/-- A race state 20 seconds into the run, still on level 1. -/
def levelUpState : Game :=
  { resetGame demoMeta blankGame with
    elapsed := 20
    spawnTimers := { enemy := 500, coin := 500 } }

def upKey : InputState :=
  { left := false, right := false, up := true, down := false, pause := false }

def rightKey : InputState :=
  { left := false, right := true, up := false, down := false, pause := false }

def upRightKeys : InputState :=
  { left := false, right := true, up := true, down := false, pause := false }

def rightDownKeys : InputState :=
  { left := false, right := true, up := false, down := true, pause := false }

/-- The Park state built by `resetGame` on the base canvas, level 1. -/
def parkStart : Game := resetGame demoMeta { blankGame with mode := .parking }

/-- The Park state reached from `parkStart` by 34 ticks of up+right and 43 ticks of up:
the player stands just left of the target zone. -/
def parkApproach : Game :=
  run (List.replicate 34 (upRightKeys, zeroDraws) ++ List.replicate 43 (upKey, zeroDraws))
    parkStart

/-- The Park state reached from `parkStart` by two ticks of right+down: the player is just
above the bottom wall. -/
def parkCorner : Game :=
  run [(rightDownKeys, zeroDraws), (rightDownKeys, zeroDraws)] parkStart

/-- The box of `p` lies strictly inside the rectangle enclosed by the four outer walls
that `setupParkingLevel` builds for the view size of `g`. -/
def strictlyInsideLot (g : Game) (p : Entity) : Prop :=
  24 + 12 < p.x ∧ p.x + p.w < 24 + (g.viewW - 24 * 2) - 12 ∧
  24 + 60 + 12 < p.y ∧ p.y + p.h < 24 + 60 + (g.viewH - 200) - 12

/-- The box of `p` lies inside (edges may touch) the rectangle enclosed by the outer walls. -/
def insideLot (g : Game) (p : Entity) : Prop :=
  24 + 12 ≤ p.x ∧ p.x + p.w ≤ 24 + (g.viewW - 24 * 2) - 12 ∧
  24 + 60 + 12 ≤ p.y ∧ p.y + p.h ≤ 24 + 60 + (g.viewH - 200) - 12

instance strictlyInsideLot.decidable (g : Game) (p : Entity) :
    Decidable (strictlyInsideLot g p) := by
  unfold strictlyInsideLot; infer_instance

instance insideLot.decidable (g : Game) (p : Entity) : Decidable (insideLot g p) := by
  unfold insideLot; infer_instance

/-- The box of `p` intersects no wall of `g`. -/
def hitsNoWall (g : Game) (p : Entity) : Bool :=
  g.walls.all (fun w => !aabb p w)

/-- The state after lines 436-472 of a tick that runs: everything of `simulate` but the
cull. -/
def advanced (inp : InputState) (d : Draws) (g : Game) : Game :=
  moveEntities (spawnStep d (movePlayer inp (updateSpeed inp (advanceTime g))))

/-- A race state whose only obstacle is about to scroll past the cull line. -/
def cullState : Game :=
  { resetGame demoMeta blankGame with
    enemies := [ { type := .enemy, x := 40, y := 918, w := 46, h := 70, lane := some 0,
                   vy := some 5 } ]
    spawnTimers := { enemy := 500, coin := 500 } }

/-- The race state built by `resetGame` on the base canvas, level 1. -/
def raceStart : Game := resetGame demoMeta blankGame

/-- A race state with three pickups on the road, the first and the last on the player. -/
def pickupState : Game :=
  { resetGame demoMeta blankGame with
    coins :=
      [ { type := .coin, x := 220, y := 760, w := 24, h := 24, lane := some 1, vy := some 5 },
        { type := .coin, x := 60, y := 300, w := 24, h := 24, lane := some 0, vy := some 5 },
        { type := .coin, x := 230, y := 770, w := 24, h := 24, lane := some 1, vy := some 5 } ]
    spawnTimers := { enemy := 500, coin := 500 } }

/-- Line 528: `currentLevels`, the objective list of the mode. -/
def currentLevels (g : Game) : List LevelDef :=
  match g.mode with
  | .race => raceLevels
  | .parking => parkingLevels

/-- A race state on level 6, past the last objective of `raceLevels`. -/
def pastLastLevel : Game :=
  { resetGame demoMeta blankGame with
    level := 6
    elapsed := 100
    spawnTimers := { enemy := 500, coin := 500 } }

/-- Rounding of a rational to the nearest integer, ties to the even one. -/
def roundHalfEven (q : ℚ) : ℤ :=
  if q - ⌊q⌋ < 1 / 2 then ⌊q⌋
  else if 1 / 2 < q - ⌊q⌋ then ⌊q⌋ + 1
  else if ⌊q⌋ % 2 = 0 then ⌊q⌋ else ⌊q⌋ + 1

/-- The position of the leading binary digit of `n`, found by halving; the first argument
bounds the number of halvings and `n` itself is always enough. -/
def leadingBitAux : ℕ → ℕ → ℕ
  | 0, _ => 0
  | f + 1, n => if n < 2 then 0 else leadingBitAux f (n / 2) + 1

/-- The position of the leading binary digit: `floor(log2 n)` for `n > 0`. -/
def leadingBit (n : ℕ) : ℕ := leadingBitAux n n

/-- The binary exponent of a nonzero rational: the `e` with `2 ^ e <= |q| < 2 ^ (e+1)`. -/
def binade (q : ℚ) : ℤ :=
  let e0 : ℤ := (leadingBit q.num.natAbs : ℤ) - (leadingBit q.den : ℤ)
  if (2 : ℚ) ^ e0 ≤ |q| then e0 else e0 - 1

/-- The spacing of binary64 numbers around `q`: 53 significant binary digits. -/
def ulp (q : ℚ) : ℚ := 2 ^ (binade q - 52)

/-- The binary64 value of a real result `q`: the nearest multiple of `ulp q`, ties to even
(round-to-nearest-even, the rounding of every JavaScript arithmetic operation).  Overflow
and subnormal numbers are not modelled; the values used here lie between 1/64 and 1100. -/
def roundDouble (q : ℚ) : ℚ :=
  if q = 0 then 0 else roundHalfEven (q / ulp q) * ulp q

/-- Line 462 as the engine computes it: the product and the difference are each rounded to
binary64. -/
def enemyIntervalDouble (speed : ℚ) : ℚ :=
  max 360 (roundDouble (OBSTACLE_SPAWN_INTERVAL_BASE_MS - roundDouble (speed * 40)))

/-- Line 463 as the engine computes it: the product and the difference are each rounded to
binary64. -/
def coinIntervalDouble (speed : ℚ) : ℚ :=
  max 420 (roundDouble (COIN_SPAWN_INTERVAL_BASE_MS - roundDouble (speed * 30)))

/-- Lines 440-441 on the speed alone, as the engine computes them: the literals `0.55`,
`0.7` and the quotient `1 / HZ` are binary64 values and every product, sum and difference
is rounded. -/
def updateSpeedDouble (speed : ℚ) (inp : InputState) : ℚ :=
  let acc := roundDouble (roundDouble (roundDouble (55 / 100) * roundDouble (1 / 60)) * 60)
  let dec := roundDouble (roundDouble (roundDouble (7 / 10) * roundDouble (1 / 60)) * 60)
  let speed := if inp.up then min MAX_SPEED (roundDouble (speed + acc)) else speed
  if inp.down then max MIN_SPEED (roundDouble (speed - dec)) else speed

def downKey : InputState :=
  { left := false, right := false, up := false, down := true, pause := false }

def upDownKeys : InputState :=
  { left := false, right := false, up := true, down := true, pause := false }

/-- The binary64 number two spacings below 4.5, printed `4.499999999999998`. -/
def speedBelow : ℚ := 9 / 2 - 1 / 2 ^ 49

/-! ## Frame lemmas -/

theorem Kept.trans_ {a b c : Game} (h1 : Kept a b) (h2 : Kept b c) : Kept a c := by
  simp only [Kept] at *
  obtain ⟨a1, a2, a3, a4, a5, a6, a7, a8, a9, a10, a11, a12⟩ := h1
  obtain ⟨b1, b2, b3, b4, b5, b6, b7, b8, b9, b10, b11, b12⟩ := h2
  exact ⟨b1.trans a1, b2.trans a2, b3.trans a3, b4.trans a4, b5.trans a5, b6.trans a6,
    b7.trans a7, b8.trans a8, b9.trans a9, b10.trans a10, b11.trans a11, b12.trans a12⟩

theorem advanceTime_kept (g : Game) : Kept g (advanceTime g) := by simp [Kept, advanceTime]

theorem updateSpeed_kept (inp : InputState) (g : Game) : Kept g (updateSpeed inp g) := by
  unfold updateSpeed Kept
  split_ifs <;> simp

theorem movePlayer_kept (inp : InputState) (g : Game) : Kept g (movePlayer inp g) := by
  unfold movePlayer Kept
  cases hm : g.mode <;> simp [hm]

theorem spawnStep_kept (d : Draws) (g : Game) : Kept g (spawnStep d g) := by
  unfold spawnStep Kept
  cases hm : g.mode
  · simp only [spawnEnemy, spawnCoin]
    split_ifs <;> simp [hm]
  · simp [hm]

theorem moveEntities_kept (g : Game) : Kept g (moveEntities g) := by
  unfold moveEntities Kept
  cases hm : g.mode <;> simp [hm]

theorem cull_kept (g : Game) : Kept g (cull g) := by
  unfold cull Kept
  cases hm : g.mode <;> simp [hm]

theorem simulate_kept (inp : InputState) (d : Draws) (g : Game) : Kept g (simulate inp d g) := by
  unfold simulate
  exact (((((advanceTime_kept g).trans_ (updateSpeed_kept inp _)).trans_
    (movePlayer_kept inp _)).trans_ (spawnStep_kept d _)).trans_ (moveEntities_kept _)).trans_
    (cull_kept _)

/-! ## The loop on stopped and on running states -/

theorem loop_of_stopped (inp : InputState) (d : Draws) (g : Game) (h : g.running = false) :
    loop inp d g = g := by
  simp [loop, h]

theorem run_of_stopped (ticks : List (InputState × Draws)) (g : Game) (h : g.running = false) :
    run ticks g = g := by
  induction ticks with
  | nil => rfl
  | cons td rest ih =>
    show run rest (loop td.1 td.2 g) = g
    rw [loop_of_stopped _ _ _ h]
    exact ih

theorem loop_of_running (inp : InputState) (d : Draws) (g : Game) (hrun : g.running = true)
    (hp : inp.pause = false) :
    loop inp d g =
      if (collisions inp (simulate inp d g)).2 then (collisions inp (simulate inp d g)).1
      else progression (accrue (collisions inp (simulate inp d g)).1) := by
  simp only [loop, hrun, hp]
  rcases collisions inp (simulate inp d g) with ⟨g1, b⟩
  cases b <;> simp

theorem collisions_race_hit (inp : InputState) (g : Game) (hm : g.mode = .race)
    (hhit : ∃ e ∈ g.enemies, aabb g.player e = true) :
    collisions inp g = (endGame g, true) := by
  have : g.enemies.any (fun e => aabb g.player e) = true := by
    simpa [List.any_eq_true] using hhit
  simp [collisions, hm, this]

/-! ## C1: a race collision ends the run -/

/-- C1. In a Race-mode tick that runs and in which, after scrolling and culling, the player
box intersects some remaining obstacle, `loop` sets `running = false` and `over = true`,
leaves score, distance, level and collectedCount as they were before the tick, and no
later sequence of `loop` calls changes the score. -/
theorem race_collision_ends_run (inp : InputState) (d : Draws) (g : Game)
    (hrun : g.running = true) (hp : inp.pause = false) (hm : g.mode = .race)
    (hhit : ∃ e ∈ (simulate inp d g).enemies, aabb (simulate inp d g).player e = true) :
    (loop inp d g).running = false ∧ (loop inp d g).over = true ∧
    (loop inp d g).score = g.score ∧ (loop inp d g).distance = g.distance ∧
    (loop inp d g).level = g.level ∧ (loop inp d g).collectedCount = g.collectedCount ∧
    ∀ later : List (InputState × Draws), (run later (loop inp d g)).score = g.score := by
  obtain ⟨-, -, k3, k4, -, -, -, k8, k9, k10, -, -⟩ := simulate_kept inp d g
  have hl : loop inp d g = endGame (simulate inp d g) := by
    rw [loop_of_running inp d g hrun hp, collisions_race_hit inp _ (k8.trans hm) hhit]
    simp
  have hstop : (loop inp d g).running = false := by rw [hl]; rfl
  refine ⟨hstop, by rw [hl]; rfl, by rw [hl]; exact k4, by rw [hl]; exact k3,
    by rw [hl]; exact k9, by rw [hl]; exact k10, ?_⟩
  intro later
  rw [run_of_stopped later _ hstop, hl]
  exact k4

/-- Witness of C1 on `crashState` with no key held. -/
theorem race_collision_ends_run_witness :
    (crashState.running = true ∧ crashState.mode = .race) ∧
    (loop noInput zeroDraws crashState).running = false ∧
    (loop noInput zeroDraws crashState).over = true ∧
    (loop noInput zeroDraws crashState).score = crashState.score ∧
    (loop noInput zeroDraws crashState).distance = crashState.distance ∧
    (loop noInput zeroDraws crashState).level = crashState.level ∧
    (loop noInput zeroDraws crashState).collectedCount = crashState.collectedCount ∧
    ∀ later : List (InputState × Draws),
      (run later (loop noInput zeroDraws crashState)).score = crashState.score :=
  ⟨by decide!, race_collision_ends_run noInput zeroDraws crashState (by decide!) (by decide!)
    (by decide!) (by decide!)⟩

/-! ## C2: parking inside the target zone ends the run with one badge -/

theorem pushBack_size (mx my : ℤ) (p w : Entity) :
    (pushBack mx my p w).w = p.w ∧ (pushBack mx my p w).h = p.h := by
  unfold pushBack
  split_ifs <;> simp

theorem foldl_pushBack_size (mx my : ℤ) (ws : List Entity) (p : Entity) :
    (ws.foldl (pushBack mx my) p).w = p.w ∧ (ws.foldl (pushBack mx my) p).h = p.h := by
  induction ws generalizing p with
  | nil => simp
  | cons w rest ih =>
    rw [List.foldl_cons]
    exact ⟨(ih _).1.trans (pushBack_size mx my p w).1, (ih _).2.trans (pushBack_size mx my p w).2⟩

theorem movePlayer_size (inp : InputState) (g : Game) :
    (movePlayer inp g).player.w = g.player.w ∧ (movePlayer inp g).player.h = g.player.h := by
  unfold movePlayer
  cases hm : g.mode <;> simp [hm]

theorem simulate_player (inp : InputState) (d : Draws) (g : Game) :
    (simulate inp d g).player = (movePlayer inp g).player := by
  have h1 : ∀ s, (cull s).player = s.player := by
    intro s; unfold cull; cases hm : s.mode <;> simp [hm]
  have h2 : ∀ s, (moveEntities s).player = s.player := by
    intro s; unfold moveEntities; cases hm : s.mode <;> simp [hm]
  have h3 : ∀ s, (spawnStep d s).player = s.player := by
    intro s; unfold spawnStep; cases hm : s.mode
    · simp only [spawnEnemy, spawnCoin]; split_ifs <;> simp [hm]
    · simp [hm]
  have h4 : (movePlayer inp (updateSpeed inp (advanceTime g))).player = (movePlayer inp g).player := by
    have e1 : (updateSpeed inp (advanceTime g)).player = g.player := by
      unfold updateSpeed advanceTime; split_ifs <;> rfl
    have e2 : (updateSpeed inp (advanceTime g)).mode = g.mode := by
      unfold updateSpeed advanceTime; split_ifs <;> rfl
    have e3 : (updateSpeed inp (advanceTime g)).viewW = g.viewW := by
      unfold updateSpeed advanceTime; split_ifs <;> rfl
    unfold movePlayer
    rw [e2]
    cases hm : g.mode <;> simp [e1, e3]
  unfold simulate
  rw [h1, h2, h3, h4]

theorem wallStep_size (inp : InputState) (d : Draws) (g : Game) :
    (wallStep inp (simulate inp d g)).player.w = g.player.w ∧
    (wallStep inp (simulate inp d g)).player.h = g.player.h := by
  have h := foldl_pushBack_size (moveX inp) (moveY inp) (simulate inp d g).walls
    (simulate inp d g).player
  have hm := movePlayer_size inp g
  have hp := simulate_player inp d g
  exact ⟨h.1.trans ((congrArg Entity.w hp).trans hm.1),
    h.2.trans ((congrArg Entity.h hp).trans hm.2)⟩

theorem aabb_of_fullyInside (p s : Entity) (hw : 0 < p.w) (hh : 0 < p.h)
    (hin : fullyInside p s) : aabb p s = true := by
  obtain ⟨h1, h2, h3, h4⟩ := hin
  simp only [aabb, Bool.and_eq_true, decide_eq_true_eq]
  refine ⟨⟨⟨?_, ?_⟩, ?_⟩, ?_⟩ <;> linarith

theorem collisions_parking_hit (inp : InputState) (g : Game) (s : Entity)
    (hm : g.mode = .parking) (hs : g.spots.head? = some s)
    (hhit : aabb (wallStep inp g).player s = true) :
    collisions inp g =
      (endGame { wallStep inp g with badges := g.badges ++ [PARKED] }, true) := by
  have e : (wallStep inp g).spots = g.spots := rfl
  simp [collisions, hm, e, hs, hhit]
  rfl

theorem loop_parking_hit (inp : InputState) (d : Draws) (g : Game) (s : Entity)
    (hrun : g.running = true) (hp : inp.pause = false) (hm : g.mode = .parking)
    (hs : g.spots.head? = some s)
    (hhit : aabb (wallStep inp (simulate inp d g)).player s = true) :
    loop inp d g =
      endGame { wallStep inp (simulate inp d g) with badges := g.badges ++ [PARKED] } := by
  obtain ⟨-, -, -, -, -, k6, k7, k8, -, -, -, -⟩ := simulate_kept inp d g
  rw [loop_of_running inp d g hrun hp,
    collisions_parking_hit inp _ s (k8.trans hm) (by rw [k6]; exact hs) hhit, k7]
  simp

/-- C2. In a Park-mode tick that runs on a state whose badges do not contain the Parked
badge, if the player box after movement and wall push-back lies fully inside `spots[0]`,
the tick ends the run and the badge list then contains the Parked badge exactly once; and
with zone (300,100,80,120), player box (310,110,54,96) and empty badges, `aabb` is true and
the final badge list is exactly the one Parked badge. -/
theorem park_success :
    (∀ (inp : InputState) (d : Draws) (g : Game) (s : Entity),
      g.running = true → inp.pause = false → g.mode = .parking → PARKED ∉ g.badges →
      g.spots.head? = some s → 0 < g.player.w → 0 < g.player.h →
      fullyInside (wallStep inp (simulate inp d g)).player s →
      (loop inp d g).running = false ∧ (loop inp d g).over = true ∧
      (loop inp d g).badges.count PARKED = 1) ∧
    (∀ (inp : InputState) (d : Draws) (g : Game) (s : Entity),
      g.running = true → inp.pause = false → g.mode = .parking → g.badges = [] →
      g.spots.head? = some s → s.x = 300 → s.y = 100 → s.w = 80 → s.h = 120 →
      (wallStep inp (simulate inp d g)).player.x = 310 →
      (wallStep inp (simulate inp d g)).player.y = 110 →
      (wallStep inp (simulate inp d g)).player.w = 54 →
      (wallStep inp (simulate inp d g)).player.h = 96 →
      aabb (wallStep inp (simulate inp d g)).player s = true ∧
      (loop inp d g).running = false ∧ (loop inp d g).over = true ∧
      (loop inp d g).badges = [PARKED]) := by
  constructor
  · intro inp d g s hrun hp hm hb hs hw hh hin
    have hsz := wallStep_size inp d g
    have hhit := aabb_of_fullyInside _ s (by rw [hsz.1]; exact hw) (by rw [hsz.2]; exact hh) hin
    rw [loop_parking_hit inp d g s hrun hp hm hs hhit]
    refine ⟨rfl, rfl, ?_⟩
    show (g.badges ++ [PARKED]).count PARKED = 1
    rw [List.count_append, List.count_eq_zero_of_not_mem hb]
    simp
  · intro inp d g s hrun hp hm hb hs sx sy sw sh px py pw ph
    have hhit : aabb (wallStep inp (simulate inp d g)).player s = true := by
      simp only [aabb, sx, sy, sw, sh, px, py, pw, ph]
      norm_num
    rw [loop_parking_hit inp d g s hrun hp hm hs hhit, hb]
    exact ⟨hhit, rfl, rfl, rfl⟩

/-- Witness of C2 on `exampleParkState` with no key held. -/
theorem park_success_witness :
    (fullyInside (wallStep noInput (simulate noInput zeroDraws exampleParkState)).player
        { type := .spot, x := 300, y := 100, w := 80, h := 120 } ∧
      (loop noInput zeroDraws exampleParkState).running = false ∧
      (loop noInput zeroDraws exampleParkState).over = true ∧
      (loop noInput zeroDraws exampleParkState).badges.count PARKED = 1) ∧
    (aabb (wallStep noInput (simulate noInput zeroDraws exampleParkState)).player
        { type := .spot, x := 300, y := 100, w := 80, h := 120 } = true ∧
      (loop noInput zeroDraws exampleParkState).running = false ∧
      (loop noInput zeroDraws exampleParkState).over = true ∧
      (loop noInput zeroDraws exampleParkState).badges = [PARKED]) :=
  ⟨⟨by decide!, park_success.1 noInput zeroDraws exampleParkState
      { type := .spot, x := 300, y := 100, w := 80, h := 120 } (by decide!) (by decide!)
      (by decide!) (by decide!) (by decide!) (by decide!) (by decide!) (by decide!)⟩,
    park_success.2 noInput zeroDraws exampleParkState
      { type := .spot, x := 300, y := 100, w := 80, h := 120 } (by decide!) (by decide!) (by decide!)
      (by decide!) (by decide!) (by decide!) (by decide!) (by decide!) (by decide!) (by decide!)
      (by decide!) (by decide!) (by decide!)⟩

/-! ## C3: the speed stays within its bounds -/

theorem simulate_speed (inp : InputState) (d : Draws) (g : Game) :
    (simulate inp d g).speed = (updateSpeed inp g).speed := by
  have h1 : ∀ s, (cull s).speed = s.speed := by
    intro s; unfold cull; cases hm : s.mode <;> simp [hm]
  have h2 : ∀ s, (moveEntities s).speed = s.speed := by
    intro s; unfold moveEntities; cases hm : s.mode <;> simp [hm]
  have h3 : ∀ s, (spawnStep d s).speed = s.speed := by
    intro s; unfold spawnStep; cases hm : s.mode
    · simp only [spawnEnemy, spawnCoin]; split_ifs <;> simp [hm]
    · simp [hm]
  have h4 : ∀ s, (movePlayer inp s).speed = s.speed := by
    intro s; unfold movePlayer; cases hm : s.mode <;> simp [hm]
  unfold simulate
  rw [h1, h2, h3, h4]
  unfold updateSpeed advanceTime
  split_ifs <;> rfl

theorem coinLoop_late (n : ℕ) (g : Game) : KeptLate g (coinLoop n g) := by
  induction n generalizing g with
  | zero => simp [coinLoop, KeptLate]
  | succ i ih =>
    unfold coinLoop
    split
    · exact ih g
    · split_ifs
      · exact ih _
      · exact ih g

theorem collisions_late (inp : InputState) (g : Game) : KeptLate g (collisions inp g).1 := by
  unfold collisions
  cases hm : g.mode
  · simp only
    split_ifs
    · simp [KeptLate, endGame]
    · exact coinLoop_late _ g
  · simp only
    split
    · split_ifs <;> simp [KeptLate, endGame, wallStep]
    · simp [KeptLate, wallStep]

theorem progression_frame (g : Game) :
    (progression g).enemies = g.enemies ∧ (progression g).avoidedCount = g.avoidedCount ∧
    (progression g).spawnTimers = g.spawnTimers ∧ (progression g).score = g.score ∧
    (progression g).running = g.running := by
  unfold progression
  cases hm : g.mode <;> simp only <;> split <;> try split_ifs
  all_goals simp [hm]

theorem progression_speed (g : Game) :
    (progression g).speed = g.speed ∨ (progression g).speed = min MAX_SPEED (g.speed + 1) := by
  unfold progression
  cases hm : g.mode <;> simp only <;> split <;> try split_ifs
  all_goals simp [hm]

theorem updateSpeed_speedOk (inp : InputState) (g : Game) (h : speedOk g) :
    speedOk (updateSpeed inp g) := by
  obtain ⟨h1, h2⟩ := h
  unfold updateSpeed speedOk
  simp only [MIN_SPEED, MAX_SPEED, ACCELERATION, DECELERATION, DT, HZ] at *
  cases inp.up <;> cases inp.down <;>
    simp only [if_true, if_false, Bool.false_eq_true, le_min_iff, min_le_iff, le_max_iff,
      max_le_iff]
  · exact ⟨h1, h2⟩
  · exact ⟨Or.inl le_rfl, by norm_num, by linarith⟩
  · exact ⟨⟨by norm_num, by linarith⟩, Or.inl le_rfl⟩
  · have := min_le_left (15 : ℚ) (g.speed + 55 / 100 * (1 / 60) * 60)
    exact ⟨Or.inl le_rfl, by norm_num, by linarith⟩

theorem loop_speedOk (inp : InputState) (d : Draws) (g : Game) (h : speedOk g) :
    speedOk (loop inp d g) := by
  cases hrun : g.running
  · rw [loop_of_stopped inp d g hrun]; exact h
  · cases hp : inp.pause
    · have hs : speedOk (simulate inp d g) := by
        have := updateSpeed_speedOk inp g h
        unfold speedOk at *
        rwa [simulate_speed]
      have hc : speedOk (collisions inp (simulate inp d g)).1 := by
        unfold speedOk at *
        rwa [(collisions_late inp (simulate inp d g)).1]
      rw [loop_of_running inp d g hrun hp]
      split_ifs
      · exact hc
      · have ha : (accrue (collisions inp (simulate inp d g)).1).speed =
            (collisions inp (simulate inp d g)).1.speed := rfl
        unfold speedOk at *
        rcases progression_speed (accrue (collisions inp (simulate inp d g)).1) with e | e
        · rw [e, ha]; exact hc
        · rw [e, ha]
          simp only [MIN_SPEED, MAX_SPEED] at *
          exact ⟨le_min (by norm_num) (by linarith), min_le_left _ _⟩
    · simp [loop, hrun, hp]; exact h

theorem run_speedOk (ticks : List (InputState × Draws)) (g : Game) (h : speedOk g) :
    speedOk (run ticks g) := by
  induction ticks generalizing g with
  | nil => exact h
  | cons td rest ih => exact ih _ (loop_speedOk td.1 td.2 g h)

theorem shrinkSpot_speed (scale : ℚ) (g : Game) : (shrinkSpot scale g).speed = g.speed := by
  unfold shrinkSpot
  split <;> rfl

theorem ensureLevelSetup_speed (g : Game) : (ensureLevelSetup g).speed = g.speed := by
  unfold ensureLevelSetup
  simp only
  split
  · split
    · rename_i ld hfind
      have hmem := List.mem_of_find?_eq_some hfind
      split
      · rename_i f hf
        simp only [parkingLevels, List.mem_cons, List.mem_singleton, List.not_mem_nil,
          or_false] at hmem
        rcases hmem with e | e | e <;> subst e <;> simp at hf
        all_goals subst hf; rw [shrinkSpot_speed]; split_ifs <;> rfl
      · split_ifs <;> rfl
    · split_ifs <;> rfl
  · split_ifs <;> rfl

theorem resetGame_speed (m : PlayerMeta) (g : Game) :
    (resetGame m g).speed = MIN_SPEED + 1 / 2 := by
  unfold resetGame
  simp only
  rw [ensureLevelSetup_speed]
  split_ifs <;> rfl

/-- C3. From the state built by `resetGame` (speed `MIN_SPEED + 0.5`), after any number of
`loop` calls in either mode, under every sequence of input samples and random draws,
`MIN_SPEED <= speed <= MAX_SPEED`, that is `4 <= speed <= 15`; the level bonus of the
progression step is part of `loop`. -/
theorem speed_invariant (m : PlayerMeta) (g0 : Game) (ticks : List (InputState × Draws)) :
    (resetGame m g0).speed = MIN_SPEED + 1 / 2 ∧
    MIN_SPEED ≤ (run ticks (resetGame m g0)).speed ∧
    (run ticks (resetGame m g0)).speed ≤ MAX_SPEED ∧
    4 ≤ (run ticks (resetGame m g0)).speed ∧ (run ticks (resetGame m g0)).speed ≤ 15 := by
  have h0 : speedOk (resetGame m g0) := by
    unfold speedOk
    rw [resetGame_speed]
    norm_num [MIN_SPEED, MAX_SPEED]
  have h := run_speedOk ticks _ h0
  exact ⟨resetGame_speed m g0, h.1, h.2, h.1, h.2⟩

/-! ## C4: completing a race objective -/

theorem beforeProgression_frame (inp : InputState) (d : Draws) (g : Game) :
    (beforeProgression inp d g).mode = g.mode ∧ (beforeProgression inp d g).level = g.level ∧
    (beforeProgression inp d g).speed = (updateSpeed inp g).speed := by
  obtain ⟨-, -, -, -, -, -, -, k8, k9, -, -, -⟩ := simulate_kept inp d g
  obtain ⟨l1, -, -, -, l5, l6⟩ := collisions_late inp (simulate inp d g)
  exact ⟨l5.trans k8, l6.trans k9, l1.trans (simulate_speed inp d g)⟩

theorem progression_race_complete (s : Game) (K : ℕ) (ld : LevelDef) (hm : s.mode = .race)
    (hK : s.level = K) (h1 : 1 ≤ K) (h5 : K ≤ 5) (hld : ld ∈ raceLevels) (hid : ld.id = K)
    (hck : ld.check s = true) :
    (progression s).level = K + 1 ∧ (progression s).speed = min MAX_SPEED (s.speed + 1) := by
  have hl : levelOr1 s = K := by
    unfold levelOr1; rw [hK]; simp; omega
  unfold progression
  simp only [hm, hl]
  simp only [raceLevels, List.mem_cons, List.mem_singleton, List.not_mem_nil, or_false] at hld
  interval_cases K <;> rcases hld with e | e | e | e | e <;> subst e <;> simp at hid <;>
    simp [raceLevels, List.find?] at hck ⊢ <;> simp [hck]

/-- C4. In a Race-mode tick that reaches the progression step with level index `K` in
1..5 and with the predicate of the `raceLevels` objective of id `K` true on the state after
score accrual, the level index after the tick is `K + 1` and the speed after the tick is
`min(MAX_SPEED, s + 1)`, `s` being the speed just before the progression step. -/
theorem race_level_completion (inp : InputState) (d : Draws) (g : Game) (K : ℕ)
    (ld : LevelDef) (hrun : g.running = true) (hp : inp.pause = false) (hm : g.mode = .race)
    (hreach : (collisions inp (simulate inp d g)).2 = false)
    (hK : g.level = K) (h1 : 1 ≤ K) (h5 : K ≤ 5)
    (hld : ld ∈ raceLevels) (hid : ld.id = K)
    (hck : ld.check (beforeProgression inp d g) = true) :
    (loop inp d g).level = K + 1 ∧
    (loop inp d g).speed = min MAX_SPEED ((beforeProgression inp d g).speed + 1) := by
  obtain ⟨f1, f2, -⟩ := beforeProgression_frame inp d g
  have hl : loop inp d g = progression (beforeProgression inp d g) := by
    rw [loop_of_running inp d g hrun hp, hreach]
    rfl
  rw [hl]
  exact progression_race_complete _ K ld (f1.trans hm) (f2.trans hK) h1 h5 hld hid hck

/-- Witness of C4 on `levelUpState`: objective 1 (survive 20 s) completes. -/
theorem race_level_completion_witness :
    (loop noInput zeroDraws levelUpState).level = 1 + 1 ∧
    (loop noInput zeroDraws levelUpState).speed =
      min MAX_SPEED ((beforeProgression noInput zeroDraws levelUpState).speed + 1) :=
  race_level_completion noInput zeroDraws levelUpState 1
    { id := 1, desc := "Survive 20s", check := fun g => decide (g.elapsed ≥ 20) }
    (by decide!) (by decide!) (by decide!) (by decide!) (by decide!) (by decide!) (by decide!)
    (by simp [raceLevels]) (by decide!) (by decide!)

/-! ## C5: parking does not advance the level -/

theorem collisions_ended (inp : InputState) (g : Game)
    (h : (collisions inp g).2 = true) : (collisions inp g).1.running = false := by
  unfold collisions at h ⊢
  cases hm : g.mode
  · simp only [hm] at h ⊢
    split_ifs at h ⊢
    rfl
  · simp only [hm] at h ⊢
    split at h
    · split_ifs at h ⊢
      rfl
    · simp at h

/-- Every tick that ends the run (a race crash or a parking success) returns before the
progression step: the level index is the one before the tick. -/
theorem loop_ended_level (inp : InputState) (d : Draws) (g : Game)
    (hrun : g.running = true) (hp : inp.pause = false)
    (hend : (collisions inp (simulate inp d g)).2 = true) :
    (loop inp d g).level = g.level := by
  obtain ⟨-, -, -, -, -, -, -, -, k9, -, -, -⟩ := simulate_kept inp d g
  obtain ⟨-, -, -, -, -, l6⟩ := collisions_late inp (simulate inp d g)
  rw [loop_of_running inp d g hrun hp, hend]
  exact l6.trans k9

/-- C5 (code defect). From `parkApproach` (Park mode, level 1, running) one tick with the
right key parks the player: the run is over, the Parked badge is in the list and the
predicate of every `parkingLevels` objective of id 1 is true on the resulting state, yet
the level index is still 1, not 2: `loop` returns through `endGame()` before the
progression step. -/
theorem park_success_keeps_level :
    (parkApproach.mode = .parking ∧ parkApproach.running = true ∧ parkApproach.level = 1) ∧
    (loop rightKey zeroDraws parkApproach).running = false ∧
    (loop rightKey zeroDraws parkApproach).over = true ∧
    PARKED ∈ (loop rightKey zeroDraws parkApproach).badges ∧
    (parkingLevels.filter (fun l => l.id == 1)).map
      (fun l => l.check (loop rightKey zeroDraws parkApproach)) = [true] ∧
    (loop rightKey zeroDraws parkApproach).level = 1 := by
  decide!

/-! ## C6: the wall push-back can move the player out of the lot -/

/-- C6 (code defect). In `parkCorner` (walls of `setupParkingLevel` on the base canvas) the
player box is strictly inside the lot and touches no wall; one tick with right and down
held makes it overlap the bottom wall, and the push-back then sets `player.x` to
`wall.x - player.w = -30`: after the tick the box is not inside the lot. -/
theorem wall_pushback_leaves_lot :
    (parkCorner.mode = .parking ∧ parkCorner.running = true ∧
      parkCorner.walls = (setupParkingLevel { blankGame with walls := [] }).walls) ∧
    (strictlyInsideLot parkCorner parkCorner.player ∧
      hitsNoWall parkCorner parkCorner.player = true) ∧
    (wallStep rightDownKeys (simulate rightDownKeys zeroDraws parkCorner)).player.x = -30 ∧
    (loop rightDownKeys zeroDraws parkCorner).player.x = -30 ∧
    (loop rightDownKeys zeroDraws parkCorner).player.y = 636 ∧
    ¬ insideLot parkCorner (loop rightDownKeys zeroDraws parkCorner).player := by
  decide!

/-! ## C7: score accrues per tick in Park mode too -/

theorem collisions_parking_score (inp : InputState) (g : Game) (hm : g.mode = .parking) :
    (collisions inp g).1.score = g.score := by
  unfold collisions
  simp only [hm]
  split
  · split_ifs <;> rfl
  · rfl

/-- C7, as stated, fails: from `parkStart` a tick with no key held does not end the run and
raises the score from 0 to 3. -/
theorem park_score_accrues_counterexample :
    parkStart.mode = .parking ∧ parkStart.running = true ∧
    (loop noInput zeroDraws parkStart).running = true ∧
    ¬ ((loop noInput zeroDraws parkStart).score = parkStart.score) := by
  decide!

/-! ## C8: the cull -/

theorem loop_late (inp : InputState) (d : Draws) (g : Game)
    (hrun : g.running = true) (hp : inp.pause = false) :
    (loop inp d g).enemies = (simulate inp d g).enemies ∧
    (loop inp d g).avoidedCount = (simulate inp d g).avoidedCount ∧
    (loop inp d g).spawnTimers = (simulate inp d g).spawnTimers := by
  obtain ⟨-, l2, l3, l4, -, -⟩ := collisions_late inp (simulate inp d g)
  rw [loop_of_running inp d g hrun hp]
  split_ifs
  · exact ⟨l2, l3, l4⟩
  · obtain ⟨p1, p2, p3, -, -⟩ := progression_frame (accrue (collisions inp (simulate inp d g)).1)
    exact ⟨p1.trans l2, p2.trans l3, p3.trans l4⟩

theorem advanced_frame (inp : InputState) (d : Draws) (g : Game) :
    (advanced inp d g).mode = g.mode ∧ (advanced inp d g).viewH = g.viewH ∧
    (advanced inp d g).avoidedCount = g.avoidedCount := by
  have h2 : ∀ s, (moveEntities s).mode = s.mode ∧ (moveEntities s).viewH = s.viewH ∧
      (moveEntities s).avoidedCount = s.avoidedCount := by
    intro s; unfold moveEntities; cases hm : s.mode <;> simp [hm]
  have h3 : ∀ s, (spawnStep d s).mode = s.mode ∧ (spawnStep d s).viewH = s.viewH ∧
      (spawnStep d s).avoidedCount = s.avoidedCount := by
    intro s; unfold spawnStep; cases hm : s.mode
    · simp only [spawnEnemy, spawnCoin]; split_ifs <;> simp [hm]
    · simp [hm]
  have h4 : ∀ s, (movePlayer inp s).mode = s.mode ∧ (movePlayer inp s).viewH = s.viewH ∧
      (movePlayer inp s).avoidedCount = s.avoidedCount := by
    intro s; unfold movePlayer; cases hm : s.mode <;> simp [hm]
  have h5 : (updateSpeed inp (advanceTime g)).mode = g.mode ∧
      (updateSpeed inp (advanceTime g)).viewH = g.viewH ∧
      (updateSpeed inp (advanceTime g)).avoidedCount = g.avoidedCount := by
    unfold updateSpeed advanceTime; split_ifs <;> simp
  unfold advanced
  exact ⟨(h2 _).1.trans ((h3 _).1.trans ((h4 _).1.trans h5.1)),
    (h2 _).2.1.trans ((h3 _).2.1.trans ((h4 _).2.1.trans h5.2.1)),
    (h2 _).2.2.trans ((h3 _).2.2.trans ((h4 _).2.2.trans h5.2.2))⟩

theorem length_sub_filter (l : List Entity) (c : ℚ) :
    max (0 : ℤ) ((l.length : ℤ) - ((l.filter (fun e => decide (e.y < c))).length : ℤ)) =
      (l.countP (fun e => decide (e.y ≥ c)) : ℤ) := by
  induction l with
  | nil => simp
  | cons e rest ih =>
    have hle : (rest.filter (fun e => decide (e.y < c))).length ≤ rest.length :=
      List.length_filter_le _ _
    have ih2 : ((rest.length : ℤ) - ((rest.filter (fun e => decide (e.y < c))).length : ℤ)) =
        (rest.countP (fun e => decide (e.y ≥ c)) : ℤ) := by
      rw [← ih, max_eq_right]; omega
    by_cases h : e.y < c
    · have h2 : ¬ (e.y ≥ c) := not_le.mpr h
      simp only [List.filter_cons, h, decide_True, if_true, List.length_cons, List.countP_cons,
        h2, decide_False, Bool.false_eq_true, if_false, Nat.cast_add, Nat.cast_one, add_zero]
      rw [← ih2, max_eq_right] <;> omega
    · have h2 : e.y ≥ c := not_lt.mp h
      simp only [List.filter_cons, h, decide_False, Bool.false_eq_true, if_false,
        List.length_cons, List.countP_cons, h2, decide_True, if_true, Nat.cast_add,
        Nat.cast_one]
      rw [← ih2, max_eq_right] <;> omega

/-- C8. In a Race-mode tick that runs, the obstacle list after the tick is exactly the
filter (hence a sub-list in the same order) of the advanced obstacles with
`y < viewH + 60`, and `avoidedCount` grows by exactly the number of advanced obstacles with
`y >= viewH + 60`; a single obstacle past that line is removed and counted once. -/
theorem cull_counts_avoided (inp : InputState) (d : Draws) (g : Game)
    (hrun : g.running = true) (hp : inp.pause = false) (hm : g.mode = .race) :
    (loop inp d g).enemies =
      (advanced inp d g).enemies.filter (fun e => decide (e.y < g.viewH + 60)) ∧
    (loop inp d g).enemies.Sublist (advanced inp d g).enemies ∧
    (loop inp d g).avoidedCount =
      g.avoidedCount +
        ((advanced inp d g).enemies.countP (fun e => decide (e.y ≥ g.viewH + 60)) : ℤ) ∧
    (∀ e : Entity, (advanced inp d g).enemies = [e] → e.y ≥ g.viewH + 60 →
      (loop inp d g).enemies = [] ∧ (loop inp d g).avoidedCount = g.avoidedCount + 1) := by
  obtain ⟨a1, a2, a3⟩ := advanced_frame inp d g
  obtain ⟨e1, e2, -⟩ := loop_late inp d g hrun hp
  have hs : simulate inp d g = cull (advanced inp d g) := rfl
  have hen : (loop inp d g).enemies =
      (advanced inp d g).enemies.filter (fun e => decide (e.y < g.viewH + 60)) := by
    rw [e1, hs]
    unfold cull
    simp only [a1.trans hm, a2]
  have hav : (loop inp d g).avoidedCount = g.avoidedCount +
      ((advanced inp d g).enemies.countP (fun e => decide (e.y ≥ g.viewH + 60)) : ℤ) := by
    rw [e2, hs]
    unfold cull
    simp only [a1.trans hm, a2, a3]
    rw [length_sub_filter]
  refine ⟨hen, ?_, hav, ?_⟩
  · rw [hen]; exact List.filter_sublist _
  · intro e he hy
    rw [hen, hav, he]
    have : ¬ (e.y < g.viewH + 60) := not_lt.mpr hy
    simp [hy, this]

/-- Witness of C8 on `cullState`: the only obstacle is culled and counted. -/
theorem cull_counts_avoided_witness :
    (cullState.running = true ∧ cullState.mode = .race) ∧
    (loop noInput zeroDraws cullState).enemies = [] ∧
    (loop noInput zeroDraws cullState).avoidedCount = cullState.avoidedCount + 1 :=
  ⟨by decide!,
    (cull_counts_avoided noInput zeroDraws cullState (by decide!) (by decide!)
      (by decide!)).2.2.2
      { type := .enemy, x := 40, y := 923, w := 46, h := 70, lane := some 0, vy := some 5 }
      (by decide!) (by decide!)⟩

/-! ## C9: spawned entities sit on a lane centre -/

theorem lane_index_range (r : ℚ) (h0 : 0 ≤ r) (h1 : r < 1) :
    0 ≤ ⌊r * LANE_COUNT⌋ ∧ ⌊r * LANE_COUNT⌋ < 3 := by
  unfold LANE_COUNT
  constructor
  · exact Int.floor_nonneg.mpr (by linarith)
  · rw [Int.floor_lt]
    push_cast
    linarith

/-- C9. For every draw `r` in `[0,1)` and every view width, the lane index
`floor(r * LANE_COUNT)` is 0, 1 or 2; `spawnEnemy` appends exactly one obstacle (`w = 46`)
and `spawnCoin` exactly one pickup (`w = 24`), each carrying that lane and with
`x = laneX(lane) - w/2`, where `laneX(lane) = ROAD_PADDING + laneWidth*lane + laneWidth/2`. -/
theorem spawn_on_lane_centre (r r2 r3 : ℚ) (g : Game) (h0 : 0 ≤ r) (h1 : r < 1) :
    (⌊r * LANE_COUNT⌋ = 0 ∨ ⌊r * LANE_COUNT⌋ = 1 ∨ ⌊r * LANE_COUNT⌋ = 2) ∧
    (∀ lane : ℤ, laneX g.viewW lane =
      ROAD_PADDING + (g.viewW - ROAD_PADDING * 2) / LANE_COUNT * lane +
        (g.viewW - ROAD_PADDING * 2) / LANE_COUNT / 2) ∧
    (∃ e : Entity, (spawnEnemy r r2 r3 g).enemies = g.enemies ++ [e] ∧
      e.lane = some ⌊r * LANE_COUNT⌋ ∧ e.w = 46 ∧
      e.x = laneX g.viewW ⌊r * LANE_COUNT⌋ - e.w / 2) ∧
    (spawnEnemy r r2 r3 g).coins = g.coins ∧
    (∃ c : Entity, (spawnCoin r g).coins = g.coins ++ [c] ∧
      c.lane = some ⌊r * LANE_COUNT⌋ ∧ c.w = 24 ∧
      c.x = laneX g.viewW ⌊r * LANE_COUNT⌋ - c.w / 2) ∧
    (spawnCoin r g).enemies = g.enemies := by
  obtain ⟨a, b⟩ := lane_index_range r h0 h1
  refine ⟨by omega, fun lane => rfl, ⟨_, rfl, rfl, rfl, rfl⟩, rfl, ⟨_, rfl, rfl, rfl, ?_⟩, rfl⟩
  norm_num

/-- Witness of C9 at the draw `r = 1/2` (lane 1) on `blankGame`. -/
theorem spawn_on_lane_centre_witness :
    (⌊(1 / 2 : ℚ) * LANE_COUNT⌋ = 0 ∨ ⌊(1 / 2 : ℚ) * LANE_COUNT⌋ = 1 ∨
      ⌊(1 / 2 : ℚ) * LANE_COUNT⌋ = 2) ∧
    (∀ lane : ℤ, laneX blankGame.viewW lane =
      ROAD_PADDING + (blankGame.viewW - ROAD_PADDING * 2) / LANE_COUNT * lane +
        (blankGame.viewW - ROAD_PADDING * 2) / LANE_COUNT / 2) ∧
    (∃ e : Entity, (spawnEnemy (1 / 2) 0 0 blankGame).enemies = blankGame.enemies ++ [e] ∧
      e.lane = some ⌊(1 / 2 : ℚ) * LANE_COUNT⌋ ∧ e.w = 46 ∧
      e.x = laneX blankGame.viewW ⌊(1 / 2 : ℚ) * LANE_COUNT⌋ - e.w / 2) ∧
    (spawnEnemy (1 / 2) 0 0 blankGame).coins = blankGame.coins ∧
    (∃ c : Entity, (spawnCoin (1 / 2) blankGame).coins = blankGame.coins ++ [c] ∧
      c.lane = some ⌊(1 / 2 : ℚ) * LANE_COUNT⌋ ∧ c.w = 24 ∧
      c.x = laneX blankGame.viewW ⌊(1 / 2 : ℚ) * LANE_COUNT⌋ - c.w / 2) ∧
    (spawnCoin (1 / 2) blankGame).enemies = blankGame.enemies :=
  spawn_on_lane_centre (1 / 2) 0 0 blankGame (by norm_num) (by norm_num)

/-! ## C10: spawn intervals -/

theorem spawnStep_timers (d : Draws) (g : Game) (hm : g.mode = .race) :
    (spawnStep d g).spawnTimers.enemy =
      (if g.spawnTimers.enemy - DT * 1000 ≤ 0 then enemyInterval g.speed
       else g.spawnTimers.enemy - DT * 1000) ∧
    (spawnStep d g).spawnTimers.coin =
      (if g.spawnTimers.coin - DT * 1000 ≤ 0 then coinInterval g.speed
       else g.spawnTimers.coin - DT * 1000) := by
  unfold spawnStep
  simp only [hm, spawnEnemy, spawnCoin]
  split_ifs <;> simp

theorem simulate_timers (inp : InputState) (d : Draws) (g : Game) (hm : g.mode = .race) :
    (simulate inp d g).spawnTimers.enemy =
      (if g.spawnTimers.enemy - DT * 1000 ≤ 0 then enemyInterval (updateSpeed inp g).speed
       else g.spawnTimers.enemy - DT * 1000) ∧
    (simulate inp d g).spawnTimers.coin =
      (if g.spawnTimers.coin - DT * 1000 ≤ 0 then coinInterval (updateSpeed inp g).speed
       else g.spawnTimers.coin - DT * 1000) := by
  have h1 : ∀ s, (cull s).spawnTimers = s.spawnTimers := by
    intro s; unfold cull; cases hm : s.mode <;> simp [hm]
  have h2 : ∀ s, (moveEntities s).spawnTimers = s.spawnTimers := by
    intro s; unfold moveEntities; cases hm : s.mode <;> simp [hm]
  have h4 : (movePlayer inp (updateSpeed inp (advanceTime g))).mode = g.mode ∧
      (movePlayer inp (updateSpeed inp (advanceTime g))).speed = (updateSpeed inp g).speed ∧
      (movePlayer inp (updateSpeed inp (advanceTime g))).spawnTimers = g.spawnTimers := by
    unfold movePlayer updateSpeed advanceTime
    cases hm : g.mode <;> simp only [hm] <;> split_ifs <;> simp [hm]
  unfold simulate
  rw [h1, h2]
  have h3 := spawnStep_timers d _ (h4.1.trans hm)
  rw [h4.2.1, h4.2.2] at h3
  exact h3

/-! ## The player box keeps its size over a run -/

theorem coinLoop_player (n : ℕ) (g : Game) : (coinLoop n g).player = g.player := by
  induction n generalizing g with
  | zero => rfl
  | succ i ih =>
    unfold coinLoop
    split
    · exact ih g
    · split_ifs
      · exact ih _
      · exact ih g

theorem collisions_player_size (inp : InputState) (g : Game) :
    (collisions inp g).1.player.w = g.player.w ∧ (collisions inp g).1.player.h = g.player.h := by
  have hw := foldl_pushBack_size (moveX inp) (moveY inp) g.walls g.player
  unfold collisions
  cases hm : g.mode
  · simp only
    split_ifs
    · exact ⟨rfl, rfl⟩
    · rw [coinLoop_player]; exact ⟨rfl, rfl⟩
  · simp only
    split
    · split_ifs <;> exact hw
    · exact hw

theorem progression_player (g : Game) : (progression g).player = g.player := by
  unfold progression
  cases hm : g.mode <;> simp only <;> split <;> try split_ifs
  all_goals simp [hm]

/-- The size of the player box is never changed by `loop`. -/
theorem loop_player_size (inp : InputState) (d : Draws) (g : Game) :
    (loop inp d g).player.w = g.player.w ∧ (loop inp d g).player.h = g.player.h := by
  cases hrun : g.running
  · rw [loop_of_stopped inp d g hrun]; exact ⟨rfl, rfl⟩
  · cases hp : inp.pause
    · have hs : (simulate inp d g).player.w = g.player.w ∧
          (simulate inp d g).player.h = g.player.h := by
        rw [simulate_player]; exact movePlayer_size inp g
      have hc := collisions_player_size inp (simulate inp d g)
      rw [loop_of_running inp d g hrun hp]
      split_ifs
      · exact ⟨hc.1.trans hs.1, hc.2.trans hs.2⟩
      · rw [progression_player]
        exact ⟨hc.1.trans hs.1, hc.2.trans hs.2⟩
    · simp [loop, hrun, hp]

theorem shrinkSpot_player (scale : ℚ) (g : Game) : (shrinkSpot scale g).player = g.player := by
  unfold shrinkSpot
  split <;> rfl

theorem ensureLevelSetup_player (g : Game) : (ensureLevelSetup g).player = g.player := by
  unfold ensureLevelSetup
  simp only
  split
  · split
    · rename_i ld hfind
      have hmem := List.mem_of_find?_eq_some hfind
      split
      · rename_i f hf
        simp only [parkingLevels, List.mem_cons, List.mem_singleton, List.not_mem_nil,
          or_false] at hmem
        rcases hmem with e | e | e <;> subst e <;> simp at hf
        all_goals subst hf; rw [shrinkSpot_player]; split_ifs <;> rfl
      · split_ifs <;> rfl
    · split_ifs <;> rfl
  · split_ifs <;> rfl

/-- Every state of a run has the 54 x 96 player box that `resetGame` builds. -/
theorem run_player_size (m : PlayerMeta) (g0 : Game) (ticks : List (InputState × Draws)) :
    (run ticks (resetGame m g0)).player.w = 54 ∧ (run ticks (resetGame m g0)).player.h = 96 := by
  have h0 : (resetGame m g0).player.w = 54 ∧ (resetGame m g0).player.h = 96 := by
    unfold resetGame
    simp only
    rw [ensureLevelSetup_player]
    split_ifs <;> exact ⟨rfl, rfl⟩
  have step : ∀ (l : List (InputState × Draws)) (g : Game),
      g.player.w = 54 ∧ g.player.h = 96 →
      (run l g).player.w = 54 ∧ (run l g).player.h = 96 := by
    intro l
    induction l with
    | nil => intro g h; exact h
    | cons td rest ih =>
      intro g h
      have hl := loop_player_size td.1 td.2 g
      exact ih _ ⟨hl.1.trans h.1, hl.2.trans h.2⟩
  exact step ticks _ h0

/-! ## C11: `aabb` is symmetric -/

/-- C11. For all boxes `a` and `b`, whatever their positions and sizes (zero and negative
sizes included), `aabb(a,b) = aabb(b,a)`. -/
theorem aabb_symmetric (a b : Entity) : aabb a b = aabb b a := by
  unfold aabb
  rw [Bool.eq_iff_iff]
  simp only [Bool.and_eq_true, decide_eq_true_eq, gt_iff_lt]
  constructor
  · rintro ⟨⟨⟨h1, h2⟩, h3⟩, h4⟩
    exact ⟨⟨⟨h2, h1⟩, h4⟩, h3⟩
  · rintro ⟨⟨⟨h1, h2⟩, h3⟩, h4⟩
    exact ⟨⟨⟨h2, h1⟩, h4⟩, h3⟩

/-! ## C12: the pickup loop -/

theorem coinLoop_spec (i : ℕ) (g : Game) (hi : i ≤ g.coins.length) :
    (coinLoop i g).coins =
      (g.coins.take i).filter (fun c => !aabb g.player c) ++ g.coins.drop i ∧
    (coinLoop i g).collectedCount =
      g.collectedCount + ((g.coins.take i).countP (fun c => aabb g.player c) : ℤ) ∧
    (coinLoop i g).score =
      g.score + 15 * ((g.coins.take i).countP (fun c => aabb g.player c) : ℤ) := by
  induction i generalizing g with
  | zero => simp [coinLoop]
  | succ i ih =>
    have hlt : i < g.coins.length := hi
    have hget : g.coins[i]? = some g.coins[i] := List.getElem?_eq_getElem hlt
    have htake : g.coins.take (i + 1) = g.coins.take i ++ [g.coins[i]] := by
      rw [List.take_succ, hget]; rfl
    have hdrop : g.coins.drop i = g.coins[i] :: g.coins.drop (i + 1) :=
      List.drop_eq_getElem_cons hlt
    unfold coinLoop
    rw [hget]
    simp only
    by_cases hhit : aabb g.player g.coins[i] = true
    · rw [if_pos hhit]
      have hlen : i ≤ (g.coins.eraseIdx i).length := by
        rw [List.length_eraseIdx, if_pos hlt]; omega
      obtain ⟨c1, c2, c3⟩ := ih { g with
        coins := g.coins.eraseIdx i
        collectedCount := g.collectedCount + 1
        score := g.score + 15 } hlen
      have hti : (g.coins.take i).length = i := by
        rw [List.length_take]; omega
      have e1 : (g.coins.eraseIdx i).take i = g.coins.take i := by
        rw [List.eraseIdx_eq_take_drop_succ]
        exact List.take_left' hti
      have e2 : (g.coins.eraseIdx i).drop i = g.coins.drop (i + 1) := by
        rw [List.eraseIdx_eq_take_drop_succ]
        exact List.drop_left' hti
      simp only [e1, e2] at c1 c2 c3
      refine ⟨?_, ?_, ?_⟩
      · rw [c1, htake, List.filter_append]
        simp [hhit]
      · rw [c2, htake, List.countP_append]
        simp [hhit]; ring
      · rw [c3, htake, List.countP_append]
        simp [hhit]; ring
    · rw [if_neg hhit]
      obtain ⟨c1, c2, c3⟩ := ih g (by omega)
      have hf : aabb g.player g.coins[i] = false := by simpa using hhit
      refine ⟨?_, ?_, ?_⟩
      · rw [c1, htake, List.filter_append, hdrop]
        simp [hf]
      · rw [c2, htake, List.countP_append]
        simp [hf]
      · rw [c3, htake, List.countP_append]
        simp [hf]

theorem collisions_race_clear (inp : InputState) (g : Game) (hm : g.mode = .race)
    (hno : ∀ e ∈ g.enemies, aabb g.player e = false) :
    collisions inp g = (coinLoop g.coins.length g, false) := by
  have : g.enemies.any (fun e => aabb g.player e) = false := by
    rw [List.any_eq_false]
    intro e he
    rw [hno e he]
    simp
  simp [collisions, hm, this]

theorem progression_pickups (g : Game) :
    (progression g).coins = g.coins ∧ (progression g).collectedCount = g.collectedCount := by
  unfold progression
  cases hm : g.mode <;> simp only <;> split <;> try split_ifs
  all_goals simp [hm]

/-- C12. In a Race-mode tick that runs and in which no obstacle hits the player, the pickup
list after the tick is exactly the filter (hence a sub-list in the same order) of the
post-cull pickups that do not intersect the player; with `n` the number of post-cull pickups
that do intersect the player, `collectedCount` grows by `n`, the score stands at
`score + 15*n` when the pickup loop ends, and the survival score of the tick is added on
top of that. -/
theorem pickup_step (inp : InputState) (d : Draws) (g : Game)
    (hrun : g.running = true) (hp : inp.pause = false) (hm : g.mode = .race)
    (hno : ∀ e ∈ (simulate inp d g).enemies, aabb (simulate inp d g).player e = false) :
    (loop inp d g).coins =
      (simulate inp d g).coins.filter (fun c => !aabb (simulate inp d g).player c) ∧
    (loop inp d g).coins.Sublist (simulate inp d g).coins ∧
    (loop inp d g).collectedCount =
      g.collectedCount +
        ((simulate inp d g).coins.countP (fun c => aabb (simulate inp d g).player c) : ℤ) ∧
    (collisions inp (simulate inp d g)).1.score =
      g.score +
        15 * ((simulate inp d g).coins.countP (fun c => aabb (simulate inp d g).player c) : ℤ) ∧
    (loop inp d g).score =
      g.score +
        15 * ((simulate inp d g).coins.countP (fun c => aabb (simulate inp d g).player c) : ℤ) +
        ⌊(updateSpeed inp g).speed * (7 / 10)⌋ := by
  obtain ⟨-, -, -, k4, -, -, -, k8, -, k10, -, -⟩ := simulate_kept inp d g
  have hc := collisions_race_clear inp (simulate inp d g) (k8.trans hm) hno
  obtain ⟨c1, c2, c3⟩ := coinLoop_spec (simulate inp d g).coins.length (simulate inp d g) le_rfl
  rw [List.take_length, List.drop_length, List.append_nil] at c1
  rw [List.take_length, k10] at c2
  rw [List.take_length, k4] at c3
  have hl : loop inp d g =
      progression (accrue (coinLoop (simulate inp d g).coins.length (simulate inp d g))) := by
    rw [loop_of_running inp d g hrun hp, hc]
    simp
  have hcoins : (loop inp d g).coins =
      (simulate inp d g).coins.filter (fun c => !aabb (simulate inp d g).player c) := by
    rw [hl, (progression_pickups _).1]
    exact c1
  refine ⟨hcoins, ?_, ?_, ?_, ?_⟩
  · rw [hcoins]; exact List.filter_sublist _
  · rw [hl, (progression_pickups _).2]
    exact c2
  · rw [hc]
    exact c3
  · rw [hl, (progression_frame _).2.2.2.1]
    show (coinLoop (simulate inp d g).coins.length (simulate inp d g)).score +
      ⌊(coinLoop (simulate inp d g).coins.length (simulate inp d g)).speed * (7 / 10)⌋ = _
    rw [c3, (coinLoop_late _ _).1, simulate_speed]

/-- Witness of C12 on `pickupState`: two of the three pickups are collected. -/
theorem pickup_step_witness :
    (pickupState.running = true ∧ pickupState.mode = .race ∧
      pickupState.collectedCount = 0 ∧ pickupState.score = 0) ∧
    (loop noInput zeroDraws pickupState).coins =
      [ { type := .coin, x := 60, y := 305, w := 24, h := 24, lane := some 0, vy := some 5 } ] ∧
    (loop noInput zeroDraws pickupState).collectedCount = 2 ∧
    (loop noInput zeroDraws pickupState).score = 33 := by
  obtain ⟨h1, -, h3, -, h5⟩ := pickup_step noInput zeroDraws pickupState (by decide!)
    (by decide!) (by decide!) (by decide!)
  refine ⟨by decide!, ?_, ?_, ?_⟩
  · rw [h1]; decide!
  · rw [h3]; decide!
  · rw [h5]; decide!

/-! ## C13: the level advances at most once per tick and only on completion -/

theorem levelOr1_of_level {a b : Game} (h : a.level = b.level) : levelOr1 a = levelOr1 b := by
  unfold levelOr1; rw [h]

theorem levelOr1_succ (s : Game) (n : ℕ) (h : s.level = n + 1) : levelOr1 s = n + 1 := by
  unfold levelOr1; rw [h]; simp

/-- The two outcomes of the progression step: nothing changes, or the objective found for
the current level index has a true predicate and the level index grows by one, with the
speed bonus in Race mode only. -/
theorem progression_cases (s : Game) :
    progression s = s ∨
    (∃ ld, (currentLevels s).find? (fun l => l.id == levelOr1 s) = some ld ∧
      ld.check s = true ∧ (progression s).level = levelOr1 s + 1 ∧
      (s.mode = .race → (progression s).speed = min MAX_SPEED (s.speed + 1)) ∧
      (s.mode = .parking → (progression s).speed = s.speed)) := by
  unfold progression currentLevels
  cases hm : s.mode <;> simp only
  · cases hf : raceLevels.find? (fun l => l.id == levelOr1 s) with
    | none => exact Or.inl rfl
    | some ld =>
      simp only
      cases hc : ld.check s
      · exact Or.inl (by simp)
      · exact Or.inr ⟨ld, rfl, hc, by simp, by simp, by simp⟩
  · cases hf : parkingLevels.find? (fun l => l.id == levelOr1 s) with
    | none => exact Or.inl rfl
    | some ld =>
      simp only
      cases hc : ld.check s
      · exact Or.inl (by simp)
      · exact Or.inr ⟨ld, rfl, hc, by simp, by simp, by simp⟩

/-- In both objective lists the ids are pairwise different, so the objective that `find`
returns for an id is the only one with that id. -/
theorem find_objective_unique (s : Game) (K : ℕ) (ld : LevelDef)
    (hld : ld ∈ currentLevels s) (hid : ld.id = K) :
    ∀ ld2, (currentLevels s).find? (fun l => l.id == K) = some ld2 →
      ld2.check s = ld.check s := by
  intro ld2 hf
  unfold currentLevels at hld hf
  cases hm : s.mode <;> simp only [hm] at hld hf
  · simp only [raceLevels, List.mem_cons, List.mem_singleton, List.not_mem_nil, or_false] at hld
    rcases hld with e | e | e | e | e <;> subst e <;> simp at hid <;> subst hid <;>
      simp [raceLevels, List.find?] at hf <;> subst hf <;> rfl
  · simp only [parkingLevels, List.mem_cons, List.mem_singleton, List.not_mem_nil,
      or_false] at hld
    rcases hld with e | e | e <;> subst e <;> simp at hid <;> subst hid <;>
      simp [parkingLevels, List.find?] at hf <;> subst hf <;> simp

theorem progression_stays (s : Game)
    (h : (∀ ld ∈ currentLevels s, ld.id ≠ levelOr1 s) ∨
      (∃ ld ∈ currentLevels s, ld.id = levelOr1 s ∧ ld.check s = false)) :
    progression s = s := by
  rcases progression_cases s with e | ⟨ld2, hf, hc, -, -, -⟩
  · exact e
  · exfalso
    rcases h with h | ⟨ld, hld, hid, hck⟩
    · have hmem := List.mem_of_find?_eq_some hf
      have hid := List.find?_some hf
      exact h ld2 hmem (by simpa using hid)
    · have := find_objective_unique s (levelOr1 s) ld hld hid ld2 hf
      rw [hc, hck] at this
      exact absurd this (by simp)

theorem beforeProgression_levels (inp : InputState) (d : Draws) (g : Game) :
    currentLevels (beforeProgression inp d g) = currentLevels g ∧
    levelOr1 (beforeProgression inp d g) = levelOr1 g := by
  obtain ⟨f1, f2, -⟩ := beforeProgression_frame inp d g
  exact ⟨by unfold currentLevels; rw [f1], levelOr1_of_level f2⟩

/-- What one call of `loop` does to the level index: it leaves `game.level` as it was, or
the tick reached the progression step, the objective found for the current index had a
true predicate there, and the index grew by one (with the Race speed bonus). -/
theorem loop_level_cases (inp : InputState) (d : Draws) (g : Game) :
    (loop inp d g).level = g.level ∨
    (g.running = true ∧ inp.pause = false ∧ (collisions inp (simulate inp d g)).2 = false ∧
      (∃ ld, (currentLevels g).find? (fun l => l.id == levelOr1 g) = some ld ∧
        ld.check (beforeProgression inp d g) = true) ∧
      (loop inp d g).level = levelOr1 g + 1 ∧
      (g.mode = .race →
        (loop inp d g).speed = min MAX_SPEED ((beforeProgression inp d g).speed + 1)) ∧
      (g.mode = .parking → (loop inp d g).speed = (beforeProgression inp d g).speed)) := by
  obtain ⟨f1, f2, -⟩ := beforeProgression_frame inp d g
  obtain ⟨b1, b2⟩ := beforeProgression_levels inp d g
  cases hrun : g.running
  · left; rw [loop_of_stopped inp d g hrun]
  · cases hp : inp.pause
    · cases hend : (collisions inp (simulate inp d g)).2
      · have hl : loop inp d g = progression (beforeProgression inp d g) := by
          rw [loop_of_running inp d g hrun hp, hend]; rfl
        rcases progression_cases (beforeProgression inp d g) with e | ⟨ld, hf, hc, h3, h4, h5⟩
        · left; rw [hl, e]; exact f2
        · right
          rw [b1, b2] at hf
          rw [b2] at h3
          rw [f1] at h4 h5
          exact ⟨rfl, rfl, rfl, ⟨ld, hf, hc⟩, by rw [hl]; exact h3,
            fun hm => by rw [hl]; exact h4 hm, fun hm => by rw [hl]; exact h5 hm⟩
      · left; exact loop_ended_level inp d g hrun hp hend
    · left; simp [loop, hrun, hp]

theorem loop_levelOr1 (inp : InputState) (d : Draws) (g : Game) :
    levelOr1 (loop inp d g) = levelOr1 g ∨ levelOr1 (loop inp d g) = levelOr1 g + 1 := by
  rcases loop_level_cases inp d g with h | ⟨-, -, -, -, h, -, -⟩
  · exact Or.inl (levelOr1_of_level h)
  · exact Or.inr (levelOr1_succ _ _ h)

theorem run_levelOr1_mono (ticks : List (InputState × Draws)) (g : Game) :
    levelOr1 g ≤ levelOr1 (run ticks g) := by
  induction ticks generalizing g with
  | nil => exact le_rfl
  | cons td rest ih =>
    have h1 : levelOr1 g ≤ levelOr1 (loop td.1 td.2 g) := by
      rcases loop_levelOr1 td.1 td.2 g with e | e <;> omega
    exact le_trans h1 (ih (loop td.1 td.2 g))

theorem shrinkSpot_level (scale : ℚ) (g : Game) : (shrinkSpot scale g).level = g.level := by
  unfold shrinkSpot
  split <;> rfl

theorem ensureLevelSetup_level (g : Game) : (ensureLevelSetup g).level ≠ 0 := by
  have h0 : (if g.level = 0 then { g with level := 1 } else g).level ≠ 0 := by
    split_ifs with h
    · simp
    · exact h
  unfold ensureLevelSetup
  simp only
  split
  · split
    · rename_i ld hfind
      have hmem := List.mem_of_find?_eq_some hfind
      split
      · rename_i f hf
        simp only [parkingLevels, List.mem_cons, List.mem_singleton, List.not_mem_nil,
          or_false] at hmem
        rcases hmem with e | e | e <;> subst e <;> simp at hf
        all_goals subst hf; rw [shrinkSpot_level]; exact h0
      · exact h0
    · exact h0
  · exact h0

theorem run_level_ne_zero (ticks : List (InputState × Draws)) (g : Game) (h : g.level ≠ 0) :
    (run ticks g).level ≠ 0 := by
  induction ticks generalizing g with
  | nil => exact h
  | cons td rest ih =>
    apply ih
    rcases loop_level_cases td.1 td.2 g with e | ⟨-, -, -, -, e, -, -⟩
    · rw [e]; exact h
    · rw [e]; exact Nat.succ_ne_zero _

/-- In every state of a run `game.level` is set (not falsy), so `game.level||1` is
`game.level`. -/
theorem run_level_set (m : PlayerMeta) (g0 : Game) (ticks : List (InputState × Draws)) :
    (run ticks (resetGame m g0)).level ≠ 0 ∧
    levelOr1 (run ticks (resetGame m g0)) = (run ticks (resetGame m g0)).level := by
  have h0 : (resetGame m g0).level ≠ 0 := by
    unfold resetGame
    exact ensureLevelSetup_level _
  have hne := run_level_ne_zero ticks _ h0
  exact ⟨hne, by unfold levelOr1; rw [if_neg hne]⟩

/-- C13. For every call of `loop`, in either mode, with level index `K = game.level||1`
before the tick: the index after the tick is `K` or `K + 1`; on a tick that reaches the
progression step it is `K`, with `game.level` and the speed left as they are, whenever the
objective list of the mode has no objective of id `K` or the objective of id `K` has a false
predicate there; when it is `K + 1`, the tick reached the progression step, the objective
of id `K` had a true predicate, and the speed is `min(MAX_SPEED, s + 1)` in Race mode (the
bonus applied once) and `s` in Park mode, `s` being the speed before the progression step.
Over any run the index never decreases, and after a tick that completed objective `K` the
index is never `K` again. -/
theorem advancement_once (inp : InputState) (d : Draws) (g : Game) :
    (levelOr1 (loop inp d g) = levelOr1 g ∨ levelOr1 (loop inp d g) = levelOr1 g + 1) ∧
    (g.level ≠ 0 →
      (loop inp d g).level = g.level ∨ (loop inp d g).level = g.level + 1) ∧
    (g.running = true → inp.pause = false → (collisions inp (simulate inp d g)).2 = false →
      ((∀ ld ∈ currentLevels g, ld.id ≠ levelOr1 g) ∨
        (∃ ld ∈ currentLevels g, ld.id = levelOr1 g ∧
          ld.check (beforeProgression inp d g) = false)) →
      levelOr1 (loop inp d g) = levelOr1 g ∧ (loop inp d g).level = g.level ∧
      (loop inp d g).speed = (beforeProgression inp d g).speed) ∧
    (levelOr1 (loop inp d g) = levelOr1 g + 1 →
      (g.running = true ∧ inp.pause = false ∧
        (collisions inp (simulate inp d g)).2 = false) ∧
      (∃ ld ∈ currentLevels g, ld.id = levelOr1 g ∧
        ld.check (beforeProgression inp d g) = true) ∧
      (g.mode = .race →
        (loop inp d g).speed = min MAX_SPEED ((beforeProgression inp d g).speed + 1)) ∧
      (g.mode = .parking → (loop inp d g).speed = (beforeProgression inp d g).speed)) ∧
    (∀ ticks : List (InputState × Draws), levelOr1 g ≤ levelOr1 (run ticks g)) ∧
    (levelOr1 (loop inp d g) = levelOr1 g + 1 →
      ∀ later : List (InputState × Draws),
        levelOr1 (run later (loop inp d g)) ≠ levelOr1 g) := by
  obtain ⟨f1, f2, -⟩ := beforeProgression_frame inp d g
  obtain ⟨b1, b2⟩ := beforeProgression_levels inp d g
  refine ⟨loop_levelOr1 inp d g, ?_, ?_, ?_, fun ticks => run_levelOr1_mono ticks g, ?_⟩
  · intro h0
    have hK : levelOr1 g = g.level := by unfold levelOr1; rw [if_neg h0]
    rcases loop_level_cases inp d g with h | ⟨-, -, -, -, h, -, -⟩
    · exact Or.inl h
    · exact Or.inr (by rw [h, hK])
  · intro hrun hp hreach hno
    have hl : loop inp d g = progression (beforeProgression inp d g) := by
      rw [loop_of_running inp d g hrun hp, hreach]; rfl
    have hst : progression (beforeProgression inp d g) = beforeProgression inp d g := by
      apply progression_stays
      rw [b1, b2]
      exact hno
    rw [hl, hst]
    exact ⟨b2, f2, rfl⟩
  · intro hadv
    rcases loop_level_cases inp d g with h | ⟨h1, h2, h3, ⟨ld, hf, hc⟩, -, h6, h7⟩
    · have := levelOr1_of_level h
      omega
    · have hmem := List.mem_of_find?_eq_some hf
      have hid := List.find?_some hf
      exact ⟨⟨h1, h2, h3⟩, ⟨ld, hmem, by simpa using hid, hc⟩, h6, h7⟩
  · intro hadv later
    have := run_levelOr1_mono later (loop inp d g)
    omega

/-- Witness of C13: `levelUpState` completes objective 1 (index 1 to 2, bonus applied, index
never 1 again); `raceStart` has a false predicate and `pastLastLevel` has no objective, so
both keep level and speed. -/
theorem advancement_once_witness :
    ((loop noInput zeroDraws levelUpState).speed =
        min MAX_SPEED ((beforeProgression noInput zeroDraws levelUpState).speed + 1) ∧
      ∀ later : List (InputState × Draws),
        levelOr1 (run later (loop noInput zeroDraws levelUpState)) ≠ levelOr1 levelUpState) ∧
    ((loop noInput zeroDraws raceStart).level = raceStart.level ∨
      (loop noInput zeroDraws raceStart).level = raceStart.level + 1) ∧
    (levelOr1 (loop noInput zeroDraws raceStart) = levelOr1 raceStart ∧
      (loop noInput zeroDraws raceStart).level = raceStart.level ∧
      (loop noInput zeroDraws raceStart).speed =
        (beforeProgression noInput zeroDraws raceStart).speed) ∧
    (levelOr1 (loop noInput zeroDraws pastLastLevel) = levelOr1 pastLastLevel ∧
      (loop noInput zeroDraws pastLastLevel).level = pastLastLevel.level ∧
      (loop noInput zeroDraws pastLastLevel).speed =
        (beforeProgression noInput zeroDraws pastLastLevel).speed) :=
  ⟨⟨((advancement_once noInput zeroDraws levelUpState).2.2.2.1 (by decide!)).2.2.1
        (by decide!),
      (advancement_once noInput zeroDraws levelUpState).2.2.2.2.2 (by decide!)⟩,
    (advancement_once noInput zeroDraws raceStart).2.1 (by decide!),
    (advancement_once noInput zeroDraws raceStart).2.2.1 (by decide!) (by decide!)
      (by decide!) (Or.inr (by decide!)),
    (advancement_once noInput zeroDraws pastLastLevel).2.2.1 (by decide!) (by decide!)
      (by decide!) (Or.inl (by decide!))⟩

/-! ## C7, amended: what a Park tick does to the score -/

theorem collisions_parking_frame (inp : InputState) (g : Game) (hm : g.mode = .parking) :
    ((collisions inp g).2 = false → (collisions inp g).1.running = g.running) ∧
    ((collisions inp g).2 = true → (collisions inp g).1.badges = g.badges ++ [PARKED]) := by
  unfold collisions
  simp only [hm]
  split
  · split_ifs <;> simp [endGame, wallStep]
  · simp [wallStep]

/-- C7 amended. In Park mode a tick that runs and does not end the run adds
`floor(0.7 * speed)` to the score, `speed` being the value after the tick's speed update
(the accrual of lines 522-523 is not restricted to Race mode); a tick that ends the run
does so by parking (the Parked badge is pushed) and leaves the score as it was. -/
theorem park_score_accrual (inp : InputState) (d : Draws) (g : Game)
    (hrun : g.running = true) (hp : inp.pause = false) (hm : g.mode = .parking) :
    ((loop inp d g).running = true →
      (loop inp d g).score = g.score + ⌊(updateSpeed inp g).speed * (7 / 10)⌋) ∧
    ((loop inp d g).running = false →
      (loop inp d g).score = g.score ∧ (loop inp d g).badges = g.badges ++ [PARKED]) := by
  obtain ⟨k1, -, -, k4, -, -, k7, k8, -, -, -, -⟩ := simulate_kept inp d g
  obtain ⟨l1, -, -, -, -, -⟩ := collisions_late inp (simulate inp d g)
  obtain ⟨c1, c2⟩ := collisions_parking_frame inp (simulate inp d g) (k8.trans hm)
  have hl := loop_of_running inp d g hrun hp
  cases hend : (collisions inp (simulate inp d g)).2
  · have hl2 : loop inp d g = progression (accrue (collisions inp (simulate inp d g)).1) := by
      rw [hl, hend]; simp
    constructor
    · intro _
      rw [hl2, (progression_frame _).2.2.2.1]
      show (collisions inp (simulate inp d g)).1.score +
        ⌊(collisions inp (simulate inp d g)).1.speed * (7 / 10)⌋ = _
      rw [collisions_parking_score inp _ (k8.trans hm), k4, l1, simulate_speed]
    · intro hstop
      have hr : (loop inp d g).running = true := by
        rw [hl2, (progression_frame _).2.2.2.2]
        show (collisions inp (simulate inp d g)).1.running = true
        rw [c1 hend, k1, hrun]
      rw [hr] at hstop
      exact absurd hstop (by simp)
  · have hl2 : loop inp d g = (collisions inp (simulate inp d g)).1 := by
      rw [hl, hend]; simp
    constructor
    · intro hcont
      rw [hl2, collisions_ended inp _ hend] at hcont
      exact absurd hcont (by simp)
    · intro _
      rw [hl2]
      exact ⟨(collisions_parking_score inp _ (k8.trans hm)).trans k4, (c2 hend).trans (by rw [k7])⟩

/-- Witness of amended C7: from `parkStart` a tick with no key held continues the run and
adds 3 points; from `parkApproach` a tick with the right key parks and adds nothing. -/
theorem park_score_accrual_witness :
    ((loop noInput zeroDraws parkStart).running = true ∧
      (loop noInput zeroDraws parkStart).score =
        parkStart.score + ⌊(updateSpeed noInput parkStart).speed * (7 / 10)⌋) ∧
    ((loop rightKey zeroDraws parkApproach).running = false ∧
      (loop rightKey zeroDraws parkApproach).score = parkApproach.score ∧
      (loop rightKey zeroDraws parkApproach).badges = parkApproach.badges ++ [PARKED]) :=
  ⟨⟨by decide!, (park_score_accrual noInput zeroDraws parkStart (by decide!) (by decide!)
      (by decide!)).1 (by decide!)⟩,
    ⟨by decide!, (park_score_accrual rightKey zeroDraws parkApproach (by decide!) (by decide!)
      (by decide!)).2 (by decide!)⟩⟩

/-! ## C10: spawn intervals in binary64 arithmetic -/

theorem leadingBitAux_spec (f n : ℕ) (hf : n ≤ f) (hn : n ≠ 0) :
    2 ^ leadingBitAux f n ≤ n ∧ n < 2 ^ (leadingBitAux f n + 1) := by
  induction f generalizing n with
  | zero => exact absurd (Nat.le_zero.mp hf) hn
  | succ f ih =>
    unfold leadingBitAux
    split_ifs with h
    · constructor <;> simp <;> omega
    · have h2 : n / 2 ≤ f := by omega
      have h3 : n / 2 ≠ 0 := by omega
      obtain ⟨a, b⟩ := ih (n / 2) h2 h3
      rw [pow_succ, pow_succ]
      constructor <;> omega

theorem leadingBit_spec (n : ℕ) (hn : n ≠ 0) :
    ((2 : ℚ) ^ (leadingBit n : ℤ) ≤ (n : ℚ)) ∧ ((n : ℚ) < (2 : ℚ) ^ ((leadingBit n : ℤ) + 1)) := by
  obtain ⟨a, b⟩ := leadingBitAux_spec n n le_rfl hn
  constructor
  · rw [zpow_natCast]
    exact_mod_cast a
  · have : (leadingBit n : ℤ) + 1 = ((leadingBit n + 1 : ℕ) : ℤ) := by push_cast; ring
    rw [this, zpow_natCast]
    exact_mod_cast b

theorem abs_eq_natAbs_div (q : ℚ) : |q| = (q.num.natAbs : ℚ) / (q.den : ℚ) := by
  rw [Rat.abs_def, Rat.divInt_eq_div]
  push_cast
  rw [Nat.cast_natAbs]
  push_cast
  rfl

theorem binade_spec (q : ℚ) (hq : q ≠ 0) :
    (2 : ℚ) ^ binade q ≤ |q| ∧ |q| < (2 : ℚ) ^ (binade q + 1) := by
  have hn : q.num.natAbs ≠ 0 := by
    simpa [Int.natAbs_eq_zero] using hq
  have hd : q.den ≠ 0 := q.den_nz
  obtain ⟨n1, n2⟩ := leadingBit_spec _ hn
  obtain ⟨d1, d2⟩ := leadingBit_spec _ hd
  have hdpos : (0 : ℚ) < q.den := by exact_mod_cast Nat.pos_of_ne_zero hd
  have hab := abs_eq_natAbs_div q
  set n : ℚ := (q.num.natAbs : ℚ) with hnq
  set d : ℚ := (q.den : ℚ) with hdq
  set a : ℤ := (leadingBit q.num.natAbs : ℤ) with ha
  set b : ℤ := (leadingBit q.den : ℤ) with hb
  have h2 : (0 : ℚ) < 2 := by norm_num
  have hup : |q| < (2 : ℚ) ^ (a - b + 1) := by
    rw [hab, div_lt_iff₀ hdpos]
    have : (2 : ℚ) ^ (a - b + 1) * (2 : ℚ) ^ b = (2 : ℚ) ^ (a + 1) := by
      rw [← zpow_add₀ (by norm_num : (2 : ℚ) ≠ 0)]; congr 1; ring
    calc n < (2 : ℚ) ^ (a + 1) := n2
      _ = (2 : ℚ) ^ (a - b + 1) * (2 : ℚ) ^ b := this.symm
      _ ≤ (2 : ℚ) ^ (a - b + 1) * d :=
          mul_le_mul_of_nonneg_left d1 (le_of_lt (zpow_pos h2 _))
  have hlo : (2 : ℚ) ^ (a - b - 1) ≤ |q| := by
    rw [hab, le_div_iff₀ hdpos]
    have : (2 : ℚ) ^ (a - b - 1) * (2 : ℚ) ^ (b + 1) = (2 : ℚ) ^ a := by
      rw [← zpow_add₀ (by norm_num : (2 : ℚ) ≠ 0)]; congr 1; ring
    calc (2 : ℚ) ^ (a - b - 1) * d ≤ (2 : ℚ) ^ (a - b - 1) * (2 : ℚ) ^ (b + 1) :=
          mul_le_mul_of_nonneg_left (le_of_lt d2) (le_of_lt (zpow_pos h2 _))
      _ = (2 : ℚ) ^ a := this
      _ ≤ n := n1
  unfold binade
  simp only
  split_ifs with h
  · exact ⟨h, hup⟩
  · refine ⟨hlo, ?_⟩
    have : a - b - 1 + 1 = a - b := by ring
    rw [this]
    exact not_le.mp h

theorem roundHalfEven_bounds (q : ℚ) : ⌊q⌋ ≤ roundHalfEven q ∧ roundHalfEven q ≤ ⌊q⌋ + 1 := by
  unfold roundHalfEven
  split_ifs <;> constructor <;> omega

theorem roundHalfEven_intCast (n : ℤ) : roundHalfEven (n : ℚ) = n := by
  unfold roundHalfEven
  simp

theorem roundHalfEven_mono {q1 q2 : ℚ} (h : q1 ≤ q2) : roundHalfEven q1 ≤ roundHalfEven q2 := by
  have hf : ⌊q1⌋ ≤ ⌊q2⌋ := Int.floor_mono h
  rcases lt_or_eq_of_le hf with hlt | heq
  · have a := (roundHalfEven_bounds q1).2
    have b := (roundHalfEven_bounds q2).1
    omega
  · unfold roundHalfEven
    rw [heq]
    have hsub : q1 - ⌊q2⌋ ≤ q2 - ⌊q2⌋ := by linarith
    split_ifs <;> first | omega | (exfalso; linarith)

theorem ulp_pos (q : ℚ) : 0 < ulp q := zpow_pos (by norm_num) _

/-- A positive value and its binary64 rounding lie in the same closed binade. -/
theorem roundDouble_bounds (q : ℚ) (hq : 0 < q) :
    (2 : ℚ) ^ binade q ≤ roundDouble q ∧ roundDouble q ≤ (2 : ℚ) ^ (binade q + 1) := by
  obtain ⟨s1, s2⟩ := binade_spec q (ne_of_gt hq)
  rw [abs_of_pos hq] at s1 s2
  have hu := ulp_pos q
  have two : (2 : ℚ) ≠ 0 := by norm_num
  have e1 : (2 : ℚ) ^ binade q = ((2 ^ 52 : ℤ) : ℚ) * ulp q := by
    unfold ulp
    have : ((2 ^ 52 : ℤ) : ℚ) = (2 : ℚ) ^ (52 : ℤ) := by norm_num
    rw [this, ← zpow_add₀ two]; congr 1; ring
  have e2 : (2 : ℚ) ^ (binade q + 1) = ((2 ^ 53 : ℤ) : ℚ) * ulp q := by
    unfold ulp
    have : ((2 ^ 53 : ℤ) : ℚ) = (2 : ℚ) ^ (53 : ℤ) := by norm_num
    rw [this, ← zpow_add₀ two]; congr 1; ring
  have l1 : ((2 ^ 52 : ℤ) : ℚ) ≤ q / ulp q := by
    rw [le_div_iff₀ hu, ← e1]; exact s1
  have l2 : q / ulp q ≤ ((2 ^ 53 : ℤ) : ℚ) := by
    rw [div_le_iff₀ hu, ← e2]; exact le_of_lt s2
  have r1 := roundHalfEven_mono l1
  have r2 := roundHalfEven_mono l2
  rw [roundHalfEven_intCast] at r1 r2
  unfold roundDouble
  rw [if_neg (ne_of_gt hq), e1, e2]
  constructor
  · exact mul_le_mul_of_nonneg_right (by exact_mod_cast r1) (le_of_lt hu)
  · exact mul_le_mul_of_nonneg_right (by exact_mod_cast r2) (le_of_lt hu)

/-- Rounding to binary64 is monotone (on positive values): a larger exact result never
rounds to a smaller number. -/
theorem roundDouble_mono {q1 q2 : ℚ} (h1 : 0 < q1) (h : q1 ≤ q2) :
    roundDouble q1 ≤ roundDouble q2 := by
  have h2 : 0 < q2 := lt_of_lt_of_le h1 h
  obtain ⟨a1, a2⟩ := binade_spec q1 (ne_of_gt h1)
  obtain ⟨b1, b2⟩ := binade_spec q2 (ne_of_gt h2)
  rw [abs_of_pos h1] at a1 a2
  rw [abs_of_pos h2] at b1 b2
  have hlt : (2 : ℚ) ^ binade q1 < (2 : ℚ) ^ (binade q2 + 1) :=
    lt_of_le_of_lt a1 (lt_of_le_of_lt h b2)
  have he : binade q1 < binade q2 + 1 := (zpow_lt_zpow_iff_right₀ (by norm_num)).mp hlt
  rcases lt_or_eq_of_le (Int.lt_add_one_iff.mp he) with hl | heq
  · have c1 := (roundDouble_bounds q1 h1).2
    have c2 := (roundDouble_bounds q2 h2).1
    have : (2 : ℚ) ^ (binade q1 + 1) ≤ (2 : ℚ) ^ binade q2 :=
      zpow_le_zpow_right₀ (by norm_num) (by omega)
    linarith
  · have hu : ulp q1 = ulp q2 := by unfold ulp; rw [heq]
    unfold roundDouble
    rw [if_neg (ne_of_gt h1), if_neg (ne_of_gt h2), hu]
    have hdiv : q1 / ulp q2 ≤ q2 / ulp q2 := div_le_div_of_nonneg_right h (le_of_lt (ulp_pos q2))
    exact mul_le_mul_of_nonneg_right (by exact_mod_cast roundHalfEven_mono hdiv)
      (le_of_lt (ulp_pos q2))

theorem enemyIntervalDouble_antitone (s1 s2 : ℚ) (h1 : MIN_SPEED ≤ s1) (h12 : s1 ≤ s2)
    (h2 : s2 ≤ MAX_SPEED) : enemyIntervalDouble s2 ≤ enemyIntervalDouble s1 := by
  unfold MIN_SPEED at h1
  unfold MAX_SPEED at h2
  have a12 : roundDouble (s1 * 40) ≤ roundDouble (s2 * 40) :=
    roundDouble_mono (by linarith) (by linarith)
  have a2 : roundDouble (s2 * 40) ≤ 600 := by
    have h600 : roundDouble 600 = 600 := by decide!
    rw [← h600]
    exact roundDouble_mono (by linarith) (by linarith)
  unfold enemyIntervalDouble OBSTACLE_SPAWN_INTERVAL_BASE_MS
  exact max_le_max le_rfl (roundDouble_mono (by linarith) (by linarith))

theorem coinIntervalDouble_antitone (s1 s2 : ℚ) (h1 : MIN_SPEED ≤ s1) (h12 : s1 ≤ s2)
    (h2 : s2 ≤ MAX_SPEED) : coinIntervalDouble s2 ≤ coinIntervalDouble s1 := by
  unfold MIN_SPEED at h1
  unfold MAX_SPEED at h2
  have a12 : roundDouble (s1 * 30) ≤ roundDouble (s2 * 30) :=
    roundDouble_mono (by linarith) (by linarith)
  have a2 : roundDouble (s2 * 30) ≤ 450 := by
    have h450 : roundDouble 450 = 450 := by decide!
    rw [← h450]
    exact roundDouble_mono (by linarith) (by linarith)
  unfold coinIntervalDouble COIN_SPAWN_INTERVAL_BASE_MS
  exact max_le_max le_rfl (roundDouble_mono (by linarith) (by linarith))

/-- C10, as stated, fails on the numbers the engine computes.  `speedBelow`
(4.499999999999998) and 4.5 are binary64 speeds in `[MIN_SPEED, MAX_SPEED]`, the first is
reached from the start speed 4.5 by the keys down, up, up and four times up+down, the second
is the start speed; the obstacle interval is 540 at both and the pickup interval 965 at
both, neither at its floor, so the interval at the larger speed is not strictly smaller. -/
theorem spawn_interval_not_strict :
    (MIN_SPEED ≤ speedBelow ∧ speedBelow < 9 / 2 ∧ (9 / 2 : ℚ) ≤ MAX_SPEED) ∧
    (roundDouble speedBelow = speedBelow ∧ roundDouble (9 / 2) = 9 / 2) ∧
    [downKey, upKey, upKey, upDownKeys, upDownKeys, upDownKeys, upDownKeys].foldl
      updateSpeedDouble (MIN_SPEED + 1 / 2) = speedBelow ∧
    (enemyIntervalDouble speedBelow = 540 ∧ enemyIntervalDouble (9 / 2) = 540) ∧
    (coinIntervalDouble speedBelow = 965 ∧ coinIntervalDouble (9 / 2) = 965) ∧
    (enemyIntervalDouble speedBelow ≠ 360 ∧
      ¬ (enemyIntervalDouble (9 / 2) < enemyIntervalDouble speedBelow)) ∧
    (coinIntervalDouble speedBelow ≠ 420 ∧
      ¬ (coinIntervalDouble (9 / 2) < coinIntervalDouble speedBelow)) := by
  decide!

/-- C10 amended. In a Race-mode tick whose countdown reaches zero the countdown is reset
to `max(360, 720 - 40*speed)` (obstacles) resp. `max(420, 1100 - 30*speed)` (pickups), with
the speed of that tick; neither interval is ever below its floor; and the interval never
grows with the speed: for speeds `s1 < s2` in `[MIN_SPEED, MAX_SPEED]` the interval at `s2`
is at most the interval at `s1`, both for the exact values of the two expressions and for
their binary64 values. -/
theorem spawn_interval_scaling :
    (∀ (inp : InputState) (d : Draws) (g : Game),
      g.running = true → inp.pause = false → g.mode = .race →
      (g.spawnTimers.enemy - DT * 1000 ≤ 0 →
        (loop inp d g).spawnTimers.enemy = max 360 (720 - (updateSpeed inp g).speed * 40)) ∧
      (g.spawnTimers.coin - DT * 1000 ≤ 0 →
        (loop inp d g).spawnTimers.coin = max 420 (1100 - (updateSpeed inp g).speed * 30))) ∧
    (∀ s : ℚ, enemyInterval s = max 360 (720 - 40 * s) ∧
      coinInterval s = max 420 (1100 - 30 * s) ∧
      360 ≤ enemyInterval s ∧ 420 ≤ coinInterval s ∧
      360 ≤ enemyIntervalDouble s ∧ 420 ≤ coinIntervalDouble s) ∧
    (∀ s1 s2 : ℚ, MIN_SPEED ≤ s1 → s1 < s2 → s2 ≤ MAX_SPEED →
      enemyInterval s2 ≤ enemyInterval s1 ∧ coinInterval s2 ≤ coinInterval s1 ∧
      enemyIntervalDouble s2 ≤ enemyIntervalDouble s1 ∧
      coinIntervalDouble s2 ≤ coinIntervalDouble s1) := by
  refine ⟨?_, ?_, ?_⟩
  · intro inp d g hrun hp hm
    obtain ⟨-, -, l3⟩ := loop_late inp d g hrun hp
    obtain ⟨t1, t2⟩ := simulate_timers inp d g hm
    constructor
    · intro h
      rw [l3, t1, if_pos h]
      rfl
    · intro h
      rw [l3, t2, if_pos h]
      rfl
  · intro s
    unfold enemyInterval coinInterval enemyIntervalDouble coinIntervalDouble
      OBSTACLE_SPAWN_INTERVAL_BASE_MS COIN_SPAWN_INTERVAL_BASE_MS
    exact ⟨by rw [mul_comm], by rw [mul_comm], le_max_left _ _, le_max_left _ _,
      le_max_left _ _, le_max_left _ _⟩
  · intro s1 s2 h1 h12 h2
    refine ⟨?_, ?_, enemyIntervalDouble_antitone s1 s2 h1 (le_of_lt h12) h2,
      coinIntervalDouble_antitone s1 s2 h1 (le_of_lt h12) h2⟩
    · unfold enemyInterval
      exact max_le_max le_rfl (by linarith)
    · unfold coinInterval
      exact max_le_max le_rfl (by linarith)

/-- Witness of amended C10: the first tick of `raceStart` resets both countdowns; the
intervals at speeds 4 and 5; and the binary64 intervals at `speedBelow` and 4.5. -/
theorem spawn_interval_scaling_witness :
    ((loop noInput zeroDraws raceStart).spawnTimers.enemy =
        max 360 (720 - (updateSpeed noInput raceStart).speed * 40) ∧
      (loop noInput zeroDraws raceStart).spawnTimers.coin =
        max 420 (1100 - (updateSpeed noInput raceStart).speed * 30)) ∧
    (enemyInterval 5 ≤ enemyInterval 4 ∧ coinInterval 5 ≤ coinInterval 4 ∧
      enemyIntervalDouble 5 ≤ enemyIntervalDouble 4 ∧
      coinIntervalDouble 5 ≤ coinIntervalDouble 4) ∧
    (enemyIntervalDouble (9 / 2) ≤ enemyIntervalDouble speedBelow ∧
      coinIntervalDouble (9 / 2) ≤ coinIntervalDouble speedBelow) :=
  ⟨⟨(spawn_interval_scaling.1 noInput zeroDraws raceStart (by decide!) (by decide!)
        (by decide!)).1 (by decide!),
      (spawn_interval_scaling.1 noInput zeroDraws raceStart (by decide!) (by decide!)
        (by decide!)).2 (by decide!)⟩,
    spawn_interval_scaling.2.2 4 5 (by decide!) (by decide!) (by decide!),
    (spawn_interval_scaling.2.2 speedBelow (9 / 2) (by decide!) (by decide!)
      (by decide!)).2.2⟩

end SpeedRays
